import Mathlib

/-!
# tracegrpc: trace-context propagation over gRPC metadata

A shallow embedding of `tracer/contrib/tracegrpc/grpc.go`, with the parts of
the tracer package it calls (span constructors, `SetMeta`, `FinishWithErr`,
the context binding, the JSON encoder of `pkg/tracer/encoder_test.go`)
modelled from the specification.

* Go strings are byte sequences (`GoString`); a byte is kept as a natural
  number, and every theorem below holds without assuming it is below 256.
* `uint64` and `int` values are naturals and integers; the conversion
  `uint64(id)` is the explicit reduction modulo `2 ^ 64`.
* `metadata.MD` (a Go `map[string][]string`) is an association list with
  distinct keys; the library functions `metadata.New`, `metadata.Join`,
  `metadata.FromContext` and `metadata.NewContext` follow the loops of the
  gRPC library.
* `strconv.Atoi` and `fmt.Sprint` follow the Go standard library on a 64-bit
  platform.
* A `*tracer.Span` is an address into the heap of span objects of `World`;
  a handler takes the state it finds and either returns or panics, leaving a
  state; an invoker is a function that returns.
* The JSON encoder is modelled on the literal of `TestJSONEncoder`, with the
  string escaping of `json.Marshal`; the text of non-empty attribute mappings
  is left to a parameter.
-/

namespace TraceGrpc

/-! ## Strings -/

/-- A Go string: its sequence of bytes. -/
abbrev GoString := List Nat

/-- The Go string of an ASCII literal. -/
def ascii (s : String) : GoString := s.toList.map Char.toNat

/-- Header under which the trace id travels (`traceIDKey`). -/
def traceIDKey : GoString := ascii "x-datadog-trace-id"

/-- Header under which the parent id travels (`parentIDKey`). -/
def parentIDKey : GoString := ascii "x-datadog-parent-id"

/-! ## strconv and fmt -/

/-- The byte test `'0' <= c && c <= '9'`. -/
def isDigit (c : Nat) : Bool := decide (48 ≤ c) && decide (c ≤ 57)

/-- The digit loop of `strconv.ParseUint` in base 10, started with the value
read so far: `n = n*10 + (c - '0')` for each byte, a syntax error (`none`) at
the first byte that is not a digit. -/
def parseDigits : GoString → Nat → Option Nat
  | [], n => some n
  | c :: cs, n => if isDigit c then parseDigits cs (n * 10 + (c - 48)) else none

/-- Size in bits of the Go `int` type on the platform modelled here. -/
def intSize : Nat := 64

/-- Model of `strconv.Atoi(s)` (that is `ParseInt(s, 10, 0)`): `none` stands for
a non-nil error. The empty string is a syntax error; one leading `+` or `-` is
removed; what remains must be a non-empty run of digits; a magnitude of
`2^63` or more (more than `2^63` for a negative number) is a range error. -/
def Atoi (s : GoString) : Option Int :=
  match s with
  | [] => none
  | c :: rest =>
    let neg : Bool := decide (c = 45)
    let body : GoString := if c = 43 ∨ c = 45 then rest else s
    match (if body = [] then none else parseDigits body 0) with
    | none => none
    | some un =>
      if neg = false ∧ un ≥ 2 ^ (intSize - 1) then none
      else if neg = true ∧ un > 2 ^ (intSize - 1) then none
      else some (if neg = true then -(un : Int) else (un : Int))

/-- The Go conversion `uint64(id)` of an `int`: reduction modulo `2 ^ 64`. -/
def uint64 (id : Int) : Nat := (id % (2 : Int) ^ 64).toNat

/-- Decimal digits of `u`, most significant first; the first argument bounds
the number of divisions by ten and `u` itself is always enough. -/
def formatDecimal : Nat → Nat → GoString
  | 0, u => [48 + u % 10]
  | fuel + 1, u =>
    if u < 10 then [48 + u] else formatDecimal fuel (u / 10) ++ [48 + u % 10]

/-- Model of `fmt.Sprint(u)` for a `uint64`: the decimal form of `u`, without
sign and without leading zeros (`"0"` for zero). -/
def Sprint (u : Nat) : GoString := formatDecimal u u

/-! ## gRPC metadata -/

/-- The type `metadata.MD`, a `map[string][]string`. -/
abbrev MD := AList (fun _ : GoString => List GoString)

/-- The Go index expression `md[k]`: the stored slice, or nil when `k` is not a
key. -/
def MD.index (md : MD) (k : GoString) : List GoString := (md.lookup k).getD []

/-- Lower-casing of one byte (`'A'..'Z'` to `'a'..'z'`). -/
def toLowerByte (c : Nat) : Nat := if 65 ≤ c ∧ c ≤ 90 then c + 32 else c

/-- Model of `strings.ToLower` on ASCII strings. -/
def toLower (s : GoString) : GoString := s.map toLowerByte

/-- Model of `metadata.New(m)`: starting from the empty map, for every entry
`k, v` of `m`, `md[key] = append(md[key], v)` where `key` is `k` lower-cased.
The argument lists the entries of the Go map `m`. (The library also encodes
the values of keys ending in `-bin`; neither reserved key does.) -/
def metadata.New (m : List (GoString × GoString)) : MD :=
  m.foldl (fun md kv => md.insert (toLower kv.1) (MD.index md (toLower kv.1) ++ [kv.2])) ∅

/-- One step of the inner loop of `metadata.Join`:
`out[k] = append(out[k], v...)`. -/
def metadata.joinStep (out : MD) (e : Sigma (fun _ : GoString => List GoString)) : MD :=
  out.insert e.1 (MD.index out e.1 ++ e.2)

/-- Model of `metadata.Join(mds...)`: starting from the empty map, for every
`md` in order and every entry `k, v` of `md`, `out[k] = append(out[k], v...)`. -/
def metadata.Join (mds : List MD) : MD :=
  mds.foldl (fun out md => md.entries.foldl metadata.joinStep out) ∅

/-- A `context.Context`, reduced to the two values this package reads and
writes: the metadata stored by the gRPC library under its private key, and the
address of the active span stored by the tracer under its own key. -/
structure Context where
  /-- The value under the metadata key, when there is one. -/
  md : Option MD
  /-- The address of the active span, when one is bound. -/
  span : Option Nat

/-- Model of `metadata.FromContext(ctx)`: the metadata and `ok = true`
(`some md`), or `ok = false` (`none`). -/
def metadata.FromContext (ctx : Context) : Option MD := ctx.md

/-- Model of `metadata.NewContext(ctx, md)`: `ctx` with `md` attached. -/
def metadata.NewContext (ctx : Context) (md : MD) : Context := { ctx with md := some md }

/-- A context that carries no metadata and no active span. -/
def emptyCtx : Context := { md := none, span := none }

/-! ## Spans -/

/-- The fields of `tracer.Span` that this package and the encoder read or
write. The identifiers are `uint64` values. -/
structure Span where
  /-- Operation name. -/
  Name : GoString
  /-- Owning service. -/
  Service : GoString
  /-- Resource (endpoint). -/
  Resource : GoString
  /-- Category tag (the Go field `Type`). -/
  SpanType : GoString
  /-- Start time in nanoseconds. -/
  Start : Int
  /-- Duration in nanoseconds. -/
  Duration : Int
  /-- Error flag, 0 or 1. -/
  Error : Nat
  /-- String attributes: a Go `map[string]string`, nil (`none`) until the first
  attribute is set. -/
  Meta : Option (AList (fun _ : GoString => GoString))
  /-- Numeric attributes: a Go `map[string]float64`, nil (`none`) when nothing was
  measured; a `float64` is kept as its 64-bit pattern. -/
  Metrics : Option (AList (fun _ : GoString => Nat))
  /-- Identifier of this span. -/
  SpanID : Nat
  /-- Identifier of the trace. -/
  TraceID : Nat
  /-- Identifier of the parent span, 0 for a root. -/
  ParentID : Nat
  /-- Whether the span has been finished. -/
  finished : Bool
  /-- Whether the tracer of the span is non-nil, that is whether
  `span.Tracer() != nil`. -/
  tracer : Bool

/-! ## Propagation: `setIDs`, `getIDs`, `getID` -/

/-- The function `setIDs(span, ctx)`; a nil `span` is `none`. -/
def setIDs (span : Option Span) (ctx : Context) : Context :=
  match span with
  | none => ctx
  | some s =>
    if s.TraceID = 0 then ctx
    else
      let md := metadata.New [(traceIDKey, Sprint s.TraceID), (parentIDKey, Sprint s.ParentID)]
      let md := match metadata.FromContext ctx with
        | some existing => metadata.Join [existing, md]
        | none => md
      metadata.NewContext ctx md

/-- The loop of `getID` over the slice `md[name]`: the first value on which
`strconv.Atoi` returns no error decides, converted with `uint64`; 0 when the
slice is exhausted. -/
def getIDLoop : List GoString → Nat
  | [] => 0
  | str :: rest =>
    match Atoi str with
    | some id => uint64 id
    | none => getIDLoop rest

/-- The function `getID(md, name)`. -/
def getID (md : MD) (name : GoString) : Nat := getIDLoop (md.index name)

/-- The function `getIDs(ctx)`: both results start at 0 and are assigned only
inside the two `if id := ...; id > 0` statements. -/
def getIDs (ctx : Context) : Nat × Nat :=
  match metadata.FromContext ctx with
  | some md =>
    let traceID := if getID md traceIDKey > 0 then getID md traceIDKey else 0
    let parentID := if getID md parentIDKey > 0 then getID md parentIDKey else 0
    (traceID, parentID)
  | none => (0, 0)

/-! ## Method identifiers: `parseMethod` -/

/-- The loop of `strings.LastIndexByte(s, c)`, `for i := n - 1; i >= 0; i--`,
returning the first `i` with `s[i] == c` and `-1` when there is none. -/
def lastIndexLoop (s : GoString) (c : Nat) : Nat → Int
  | 0 => -1
  | i + 1 => if s.get? i = some c then (i : Int) else lastIndexLoop s c i

/-- Model of `strings.LastIndexByte(s, c)`. -/
def LastIndexByte (s : GoString) (c : Nat) : Int := lastIndexLoop s c s.length

/-- The Go slice expression `s[lo:hi]`; `none` is the run-time panic raised
unless `0 <= lo <= hi <= len(s)`. -/
def slice (s : GoString) (lo hi : Int) : Option GoString :=
  if 0 ≤ lo ∧ lo ≤ hi ∧ hi ≤ (s.length : Int) then some ((s.take hi.toNat).drop lo.toNat)
  else none

/-- The function `parseMethod(method)`; `none` is a panic of one of its two
slice expressions (`method[idx+1:]` is `method[idx+1:len(method)]`). -/
def parseMethod (method : GoString) : Option (GoString × GoString) :=
  let start : Int := if method.length > 0 ∧ method.get? 0 = some 47 then 1 else 0
  let idx := LastIndexByte method 47
  if idx > 0 then
    match slice method start idx, slice method (idx + 1) method.length with
    | some service, some resource => some (service, resource)
    | _, _ => none
  else some ([], [])

/-! ## The tracer, as far as this package uses it -/

/-- A Go `error` value: nil (`none`) or an error with its message. -/
abbrev GoError := Option GoString

/-- The state the package works on: the switch of the tracer, the span
objects, the clock and the source of identifiers. A `*tracer.Span` is an
address; `heap` gives the span object at each address and the addresses below
`allocated` are in use. -/
structure World where
  /-- The value `t.Enabled()` reports. -/
  enabled : Bool
  /-- The span object at each address. -/
  heap : Nat → Span
  /-- Number of span objects created so far. -/
  allocated : Nat
  /-- The clock reading, in nanoseconds. -/
  now : Int
  /-- The identifiers the generator hands out, in order. -/
  ids : Nat → Nat
  /-- Number of identifiers handed out so far. -/
  drawn : Nat
  /-- The calls of `FinishWithErr` so far, oldest first: the address of the
  span and whether the error was non-nil. -/
  finishLog : List (Nat × Bool)

/-- The world after the span object at address `p` is replaced by `f` of it. -/
def World.modify (w : World) (p : Nat) (f : Span → Span) : World :=
  { w with heap := fun a => if a = p then f (w.heap p) else w.heap a }

/-- Modelled from the spec: `create_root(name, service, resource)` of the
tracer package (`t.NewRootSpan`), which generates `trace_id` and `span_id`,
sets `start` to the current time and `parent_id = 0`. Returns the address of
the new span object. -/
def NewRootSpan (w : World) (name service resource : GoString) : Nat × World :=
  let s : Span :=
    { Name := name, Service := service, Resource := resource, SpanType := [], Start := w.now,
      Duration := 0, Error := 0, Meta := none, Metrics := none, SpanID := w.ids (w.drawn + 1),
      TraceID := w.ids w.drawn, ParentID := 0, finished := false, tracer := true }
  (w.allocated,
    { w with
      heap := fun a => if a = w.allocated then s else w.heap a
      allocated := w.allocated + 1
      drawn := w.drawn + 2 })

/-- Modelled from the spec: `set_meta(key, value)` of the tracer package
(`span.SetMeta`), which attaches or overwrites a string attribute and is a
no-op once the span is finished. -/
def SetMeta (w : World) (span : Nat) (key value : GoString) : World :=
  w.modify span (fun s =>
    if s.finished then s
    else { s with Meta := some (AList.insert key value (s.Meta.getD ∅)) })

/-- Modelled from the spec: `finish(outcome)` of the tracer package
(`span.FinishWithErr`), which computes `duration = now - start`, sets
`error = 1` if the outcome denotes failure, else `0`, and freezes the span. The
call is recorded in `finishLog`. -/
def FinishWithErr (w : World) (span : Nat) (err : GoError) : World :=
  let w1 := w.modify span (fun s =>
    { s with Duration := w.now - s.Start, Error := if err.isSome then 1 else 0, finished := true })
  { w1 with finishLog := w.finishLog ++ [(span, err.isSome)] }

/-- Modelled from the spec: binding a span to the execution context
(`tracer.ContextWithSpan`). -/
def ContextWithSpan (ctx : Context) (span : Nat) : Context := { ctx with span := some span }

/-! ## The server side: `serverSpan`, `UnaryServerInterceptor` -/

/-- The function `serverSpan(t, ctx, method)`; returns the address of the new
span. `none` is a panic inside `parseMethod`. -/
def serverSpan (w : World) (ctx : Context) (method : GoString) : Option (Nat × World) :=
  match parseMethod method with
  | none => none
  | some (service, resource) =>
    let (span, w) := NewRootSpan w (ascii "grpc.server") service resource
    let w := SetMeta w span (ascii "gprc.method") method
    let w := w.modify span (fun s => { s with SpanType := ascii "go" })
    let (traceID, parentID) := getIDs ctx
    let w :=
      if traceID ≠ 0 ∧ parentID ≠ 0 then
        w.modify span (fun s => { s with TraceID := traceID, ParentID := parentID })
      else w
    some (span, w)

/-- The argument `info *grpc.UnaryServerInfo`, of which only `FullMethod` is
read. -/
structure UnaryServerInfo where
  /-- The full method identifier of the call. -/
  FullMethod : GoString

/-- How a call of a Go function ends: it returns its results, or it panics;
either way it leaves a state behind. -/
inductive Outcome (α : Type) where
  /-- The call returned `value` and left the state `w`. -/
  | returned (value : α) (w : World) : Outcome α
  /-- The call panicked and left the state `w`. -/
  | panicked (w : World) : Outcome α

/-- The state a call leaves. -/
def Outcome.world {α : Type} : Outcome α → World
  | Outcome.returned _ w => w
  | Outcome.panicked w => w

/-- The results of a call that returned, `none` for a call that panicked. -/
def Outcome.results {α : Type} : Outcome α → Option α
  | Outcome.returned v _ => some v
  | Outcome.panicked _ => none

/-- A `grpc.UnaryHandler`: from the context, the request and the state it
finds, it returns a response and an error, or it panics. -/
abbrev UnaryHandler (Req Resp : Type) := Context → Req → World → Outcome (Resp × GoError)

/-- The closure returned by `UnaryServerInterceptor(t)`. It has no `defer` and
no `recover`: a panic of the handler (or inside `serverSpan`) ends the closure
at that point, and the statements after the call of the handler are not run. -/
def UnaryServerInterceptor {Req Resp : Type} (w : World) (ctx : Context) (req : Req)
    (info : UnaryServerInfo) (handler : UnaryHandler Req Resp) : Outcome (Resp × GoError) :=
  if w.enabled = false then handler ctx req w
  else
    match serverSpan w ctx info.FullMethod with
    | none => Outcome.panicked w
    | some (span, w1) =>
      match handler (ContextWithSpan ctx span) req w1 with
      | Outcome.returned (resp, err) w2 =>
        Outcome.returned (resp, err) (FinishWithErr w2 span err)
      | Outcome.panicked w2 => Outcome.panicked w2

/-! ## The client side: `UnaryClientInterceptor` -/

/-- Modelled from the spec: looking up the active span of the execution
context (`tracer.SpanFromContext`), which gives its address and `ok = true`
(`some`), or `ok = false` (`none`). -/
def SpanFromContext (ctx : Context) : Option Nat := ctx.span

/-- Modelled from the spec: `create_child(parent, name)` of the tracer package
(`t.NewChildSpan`), which inherits `trace_id` from the parent, generates a fresh
`span_id`, sets `parent_id` to the span id of the parent and `start` to the
current time; service and resource default from the parent. Returns the
address of the new span object. -/
def NewChildSpan (w : World) (name : GoString) (parent : Nat) : Nat × World :=
  let s : Span :=
    { Name := name, Service := (w.heap parent).Service, Resource := (w.heap parent).Resource,
      SpanType := [], Start := w.now, Duration := 0, Error := 0, Meta := none, Metrics := none,
      SpanID := w.ids w.drawn, TraceID := (w.heap parent).TraceID,
      ParentID := (w.heap parent).SpanID, finished := false, tracer := (w.heap parent).tracer }
  (w.allocated,
    { w with
      heap := fun a => if a = w.allocated then s else w.heap a
      allocated := w.allocated + 1
      drawn := w.drawn + 1 })

/-- A `grpc.UnaryInvoker` that returns: from the context, the method, the
request, the reply, the connection, the call options and the state it finds,
an error and the state it leaves. -/
abbrev UnaryInvoker (Req Reply Conn Opt : Type) :=
  Context → GoString → Req → Reply → Conn → List Opt → World → GoError × World

/-- The first part of the closure returned by `UnaryClientInterceptor()`, up to
the call of the invoker: the value of `child` (nil is `none`), the context that
the invoker will receive and the state. -/
def clientSpan (w : World) (ctx : Context) (method : GoString) : Option Nat × Context × World :=
  match SpanFromContext ctx with
  | some span =>
    if (w.heap span).tracer = true then
      let c := NewChildSpan w (ascii "grpc.client") span
      let w1 := SetMeta c.2 c.1 (ascii "grpc.method") method
      let ctx1 := setIDs (some (w1.heap c.1)) ctx
      let ctx2 := ContextWithSpan ctx1 c.1
      (some c.1, ctx2, w1)
    else (none, ctx, w)
  | none => (none, ctx, w)

/-- The closure returned by `UnaryClientInterceptor()`. The text of the status
code, `grpc.Code(err).String()`, is the parameter `codeString`. -/
def UnaryClientInterceptor {Req Reply Conn Opt : Type} (codeString : GoError → GoString)
    (w : World) (ctx : Context) (method : GoString) (req : Req) (reply : Reply) (cc : Conn)
    (invoker : UnaryInvoker Req Reply Conn Opt) (opts : List Opt) : GoError × World :=
  let p := clientSpan w ctx method
  let r := invoker p.2.1 method req reply cc opts p.2.2
  match p.1 with
  | some child =>
    (r.1, FinishWithErr (SetMeta r.2 child (ascii "grpc.code") (codeString r.1)) child r.1)
  | none => (r.1, r.2)

/-! ## The span encoder -/

/-- The decimal text of a signed integer. -/
def formatInt (i : Int) : GoString := if i < 0 then 45 :: Sprint i.natAbs else Sprint i.toNat

/-- A byte that the JSON text of a string shows as it is: printable ASCII
other than the double quote and the backslash, and other than `<`, `>` and `&`. -/
def plainByte (b : Nat) : Bool :=
  decide (32 ≤ b) && decide (b < 127) && !(b == 34 || b == 92 || b == 60 || b == 62 || b == 38)

/-- What the spec leaves to the JSON library: the text of a non-empty `meta`
mapping, and the text of a non-empty `metrics` mapping (whose values are
floating-point numbers), `none` when one of its values cannot be represented. -/
structure JSONLibrary where
  /-- JSON text of a non-empty string mapping. -/
  metaObject : AList (fun _ : GoString => GoString) → GoString
  /-- JSON text of a non-empty numeric mapping, or the `EncodingError`. -/
  metricsObject : AList (fun _ : GoString => Nat) → Option GoString

/-- The hexadecimal digit of a value below 16, from `"0123456789abcdef"`. -/
def hexDigit (n : Nat) : Nat := if n < 10 then 48 + n else 87 + n

/-- A continuation byte of UTF-8, `0x80..0xBF`. -/
def utf8Cont (b : Nat) : Bool := decide (128 ≤ b) && decide (b ≤ 191)

/-- The length of the well-formed UTF-8 sequence of two to four bytes that
starts the string, 0 when there is none (`utf8.DecodeRuneInString` then reports
`RuneError` with size 1). -/
def utf8Size (s : GoString) : Nat :=
  match s with
  | [] => 0
  | b0 :: t =>
    if 194 ≤ b0 ∧ b0 ≤ 223 then
      match t with
      | b1 :: _ => if utf8Cont b1 = true then 2 else 0
      | [] => 0
    else if 224 ≤ b0 ∧ b0 ≤ 239 then
      match t with
      | b1 :: b2 :: _ =>
        if (if b0 = 224 then 160 ≤ b1 ∧ b1 ≤ 191
            else if b0 = 237 then 128 ≤ b1 ∧ b1 ≤ 159
            else utf8Cont b1 = true) ∧ utf8Cont b2 = true then 3 else 0
      | _ => 0
    else if 240 ≤ b0 ∧ b0 ≤ 244 then
      match t with
      | b1 :: b2 :: b3 :: _ =>
        if (if b0 = 240 then 144 ≤ b1 ∧ b1 ≤ 191
            else if b0 = 244 then 128 ≤ b1 ∧ b1 ≤ 143
            else utf8Cont b1 = true) ∧ utf8Cont b2 = true ∧ utf8Cont b3 = true then 4 else 0
      | _ => 0
    else 0

/-- The JSON text of one byte below `0x80`: itself when it is `0x20` or more
and none of the double quote, the backslash, `<`, `>`, `&`; a two-byte escape
for the double quote, the backslash, newline, carriage return and tab; the
escape `u00XX` for the others. -/
def escapeByte (b : Nat) : GoString :=
  if 32 ≤ b ∧ b ≠ 92 ∧ b ≠ 34 ∧ b ≠ 60 ∧ b ≠ 62 ∧ b ≠ 38 then [b]
  else if b = 92 ∨ b = 34 then [92, b]
  else if b = 10 then [92, 110]
  else if b = 13 then [92, 114]
  else if b = 9 then [92, 116]
  else [92, 117, 48, 48, hexDigit (b / 16), hexDigit (b % 16)]

/-- The loop of the string encoding of `encoding/json` with HTML escaping, as
`json.Marshal` runs it: bytes below `0x80` go through `escapeByte`; a byte that
starts no well-formed UTF-8 sequence becomes the escape `ufffd`; the line and
paragraph separators `U+2028` and `U+2029` become the escapes `u2028` and
`u2029`; any other well-formed sequence is copied. The first argument bounds the
number of steps and the length of the string is always enough. -/
def escapeLoop : Nat → GoString → GoString
  | 0, _ => []
  | fuel + 1, s =>
    match s with
    | [] => []
    | b :: rest =>
      if b < 128 then escapeByte b ++ escapeLoop fuel rest
      else if utf8Size s = 0 then [92, 117, 102, 102, 102, 100] ++ escapeLoop fuel rest
      else if s.take 3 = [226, 128, 168] then
        [92, 117, 50, 48, 50, 56] ++ escapeLoop fuel (s.drop 3)
      else if s.take 3 = [226, 128, 169] then
        [92, 117, 50, 48, 50, 57] ++ escapeLoop fuel (s.drop 3)
      else s.take (utf8Size s) ++ escapeLoop fuel (s.drop (utf8Size s))

/-- JSON text of a string: the escaped bytes between double quotes. -/
def jsonString (s : GoString) : GoString := 34 :: (escapeLoop s.length s ++ [34])


/-- JSON text of the `meta` mapping: `null` for a nil or empty mapping. -/
def encodeMeta (lib : JSONLibrary) (m : Option (AList (fun _ : GoString => GoString))) :
    GoString :=
  match m with
  | none => ascii "null"
  | some m => if m.entries = [] then ascii "null" else lib.metaObject m

/-- JSON text of the `metrics` mapping: `null` for a nil or empty mapping,
`none` when a value cannot be represented. -/
def encodeMetrics (lib : JSONLibrary) (m : Option (AList (fun _ : GoString => Nat))) :
    Option GoString :=
  match m with
  | none => some (ascii "null")
  | some m => if m.entries = [] then some (ascii "null") else lib.metricsObject m

/-- Modelled from the spec: the record of one span in `encode(spans)`, holding
in a fixed field order all attributes of the span, numbers as plain numbers and
empty mappings as `null`. The JSON syntax, the field names and their order are
those of the literal in `TestJSONEncoder`. -/
def encodeSpan (lib : JSONLibrary) (s : Span) : Option GoString :=
  match encodeMetrics lib s.Metrics with
  | none => none
  | some metrics =>
    some (ascii "\x7b\"name\":" ++ jsonString s.Name ++
      ascii ",\"service\":" ++ jsonString s.Service ++
      ascii ",\"resource\":" ++ jsonString s.Resource ++
      ascii ",\"type\":" ++ jsonString s.SpanType ++
      ascii ",\"start\":" ++ formatInt s.Start ++
      ascii ",\"duration\":" ++ formatInt s.Duration ++
      ascii ",\"error\":" ++ Sprint s.Error ++
      ascii ",\"meta\":" ++ encodeMeta lib s.Meta ++
      ascii ",\"metrics\":" ++ metrics ++
      ascii ",\"span_id\":" ++ Sprint s.SpanID ++
      ascii ",\"trace_id\":" ++ Sprint s.TraceID ++
      ascii ",\"parent_id\":" ++ Sprint s.ParentID ++ ascii "\x7d")

/-- The records of the spans in the order supplied, a nil pointer giving
`null`; `none` as soon as one record fails. -/
def encodeRecords (lib : JSONLibrary) : List (Option Span) → Option (List GoString)
  | [] => some []
  | none :: rest => (encodeRecords lib rest).map (fun rs => ascii "null" :: rs)
  | some s :: rest =>
    match encodeSpan lib s, encodeRecords lib rest with
    | some r, some rs => some (r :: rs)
    | _, _ => none

/-- The texts separated by commas. -/
def joinComma : List GoString → GoString
  | [] => []
  | [r] => r
  | r :: rs => r ++ 44 :: joinComma rs

/-- Modelled from the spec: `encode(spans)` of the tracer package (the method
`Encode` of the encoder that `NewJSONEncoder` returns), which produces an array
of records in the order supplied; `none` is the `EncodingError`. -/
def Encode (lib : JSONLibrary) (spans : List (Option Span)) : Option GoString :=
  (encodeRecords lib spans).map (fun rs => 91 :: (joinComma rs ++ [93]))

/-- Modelled from the spec: the constructor `newSpan` of the tracer package,
with the arguments of its call in `TestJSONEncoder`: three identifiers (all 0
in the test, so their order does not show), service, name, resource and the
tracer; the start is the current time. -/
def newSpan (now : Int) (spanID traceID parentID : Nat) (service name resource : GoString)
    (tracer : Bool) : Span :=
  { Name := name, Service := service, Resource := resource, SpanType := [], Start := now,
    Duration := 0, Error := 0, Meta := none, Metrics := none, SpanID := spanID,
    TraceID := traceID, ParentID := parentID, finished := false, tracer := tracer }

/-- A JSON library that is never consulted when both mappings are nil. -/
def noLibrary : JSONLibrary :=
  { metaObject := fun _ => [], metricsObject := fun _ => none }

/-! ## Words of the wire contract -/

/-- A non-empty string of decimal digits. -/
def isDecimal (s : GoString) : Bool := decide (s ≠ []) && s.all isDigit

/-- The number a string of decimal digits denotes. -/
def decimalValue (s : GoString) : Nat := s.foldl (fun n c => n * 10 + (c - 48)) 0

/-- The string without one leading `+` or `-`. -/
def stripSign (s : GoString) : GoString :=
  match s with
  | [] => []
  | c :: rest => if c = 43 ∨ c = 45 then rest else s

/-- A decimal digit string with an optional sign in front. -/
def isNumeric (s : GoString) : Bool := isDecimal (stripSign s)

/-- A span that carries only identifiers, every other field zero. -/
def spanWithIDs (traceID parentID : Nat) : Span :=
  { Name := [], Service := [], Resource := [], SpanType := [], Start := 0, Duration := 0,
    Error := 0, Meta := none, Metrics := none, SpanID := 0, TraceID := traceID,
    ParentID := parentID, finished := false, tracer := false }

/-- A context whose metadata is `md`, with no active span. -/
def ctxWithMD (md : MD) : Context := { md := some md, span := none }

/-- The metadata with the values `vs` under the single key `k`. -/
def mdSingle (k : GoString) (vs : List GoString) : MD := AList.insert k vs ∅

/-- The part of a method identifier before its last `/`, without the leading
`/` when there is one. -/
def dropLeadingSlash (pre : GoString) : GoString :=
  if pre.head? = some 47 then pre.tail else pre

/-- The root span that `serverSpan` creates for `method` in the world `w`,
before any identifier is overridden. -/
def freshRoot (w : World) (method : GoString) : Option Span :=
  (parseMethod method).map (fun sr =>
    (NewRootSpan w (ascii "grpc.server") sr.1 sr.2).2.heap
      (NewRootSpan w (ascii "grpc.server") sr.1 sr.2).1)

/-- The span object that `serverSpan` returns. -/
def serverSpanResult (w : World) (ctx : Context) (method : GoString) : Option Span :=
  (serverSpan w ctx method).map (fun r => r.2.heap r.1)

/-- A world with tracing enabled, no span allocated, and a generator that
hands out the identifier 5. -/
def world0 : World :=
  { enabled := true, heap := fun _ => spanWithIDs 0 0, allocated := 0, now := 0,
    ids := fun _ => 5, drawn := 0, finishLog := [] }

/-- A handler that fails with the error `boom` and the response 7, and leaves
the state as it found it. -/
def failingHandler : UnaryHandler Nat Nat :=
  fun _ _ w => Outcome.returned (7, some (ascii "boom")) w

/-- A handler that panics at once and leaves the state as it found it. -/
def panickingHandler : UnaryHandler Nat Nat := fun _ _ w => Outcome.panicked w

/-- The value of `start` in `parseMethod`: 1 when the identifier begins with
`/`, else 0. -/
def parseStart (method : GoString) : Int :=
  if method.length > 0 ∧ method.get? 0 = some 47 then 1 else 0

/-- The string `"/"` when the identifier begins with `/`, else the empty
string. -/
def leadingSlash (method : GoString) : GoString :=
  if method.head? = some 47 then [47] else []

/-- The values a context holds under the metadata key `k`: `md[k]` when the
context carries metadata `md`, none otherwise. -/
def ctxIndex (ctx : Context) (k : GoString) : List GoString :=
  match metadata.FromContext ctx with
  | some md => md.index k
  | none => []

/-- The world `world0` after one span with a tracer, trace id 11 and span id
12, was created at address 0. -/
def world1 : World :=
  { world0 with
    heap := fun _ =>
      { spanWithIDs 11 0 with SpanID := 12, Service := ascii "web", tracer := true }
    allocated := 1 }

/-- A context without metadata whose active span is at address 0. -/
def ctxActive : Context := { md := none, span := some 0 }

/-- The context of a server handler that was called with the trace id 11 and
the parent id 3 in its metadata and whose server span is at address 0: the
context a handler passes on when it calls another service. -/
def ctxHop : Context :=
  { md := some ((mdSingle traceIDKey [ascii "11"]).insert parentIDKey [ascii "3"]),
    span := some 0 }

/-- An invoker that fails with the error `down` and leaves the state as it
found it. -/
def failingInvoker : UnaryInvoker Nat Nat Nat Nat := fun _ _ _ _ _ _ w => (some (ascii "down"), w)

/-- A handler that succeeds with the response 7 and leaves the state as it
found it. -/
def okHandler : UnaryHandler Nat Nat := fun _ _ w => Outcome.returned (7, none) w

/-- A stand-in for `grpc.Code(err).String()`. -/
def codeText (err : GoError) : GoString := if err = none then ascii "OK" else ascii "Unknown"

/-- Whether a text is a JSON integer: decimal digits, with `-` in front for a
negative number. -/
def isIntText (s : GoString) : Bool :=
  if s.head? = some 45 then isDecimal s.tail else isDecimal s

/-- The integer a JSON integer text denotes. -/
def intValue (s : GoString) : Int :=
  if s.head? = some 45 then -(decimalValue s.tail : Int) else (decimalValue s : Int)

/-- A span with trace id 5, parent id 7, start -3 and the name `a"b`, every
other field zero. -/
def sampleSpan : Span := { spanWithIDs 5 7 with Start := -3, Name := ascii "a\"b" }

/-! ## Parsing and rendering of identifiers -/

theorem parseDigits_eq (s : GoString) (n : Nat) :
    parseDigits s n =
      if s.all isDigit = true then some (s.foldl (fun n c => n * 10 + (c - 48)) n) else none := by
  induction s generalizing n with
  | nil => simp [parseDigits]
  | cons c cs ih =>
    by_cases hc : isDigit c = true
    · simp [parseDigits, hc, ih]
    · simp [parseDigits, hc]

theorem Atoi_of_not_numeric (s : GoString) (h : isNumeric s = false) : Atoi s = none := by
  cases s with
  | nil => rfl
  | cons c rest =>
    have hbody : isDecimal (if c = 43 ∨ c = 45 then rest else c :: rest) = false := by
      simpa [isNumeric, stripSign] using h
    simp only [Atoi]
    by_cases hb : (if c = 43 ∨ c = 45 then rest else c :: rest) = []
    · simp [hb]
    · have hall : (if c = 43 ∨ c = 45 then rest else c :: rest).all isDigit = false := by
        simpa [isDecimal, hb] using hbody
      simp [hb, parseDigits_eq, hall]

theorem Atoi_of_decimal (v : GoString) (hv : isDecimal v = true)
    (hr : decimalValue v < 2 ^ 63) : Atoi v = some (decimalValue v : Int) := by
  cases v with
  | nil => simp [isDecimal] at hv
  | cons c rest =>
    have hall : (c :: rest).all isDigit = true := by
      simp only [isDecimal, Bool.and_eq_true] at hv
      exact hv.2
    have hc : isDigit c = true := by
      simp only [List.all_cons, Bool.and_eq_true] at hall
      exact hall.1
    have h43 : c ≠ 43 := by
      intro h; subst h; simp [isDigit] at hc
    have h45 : c ≠ 45 := by
      intro h; subst h; simp [isDigit] at hc
    have hval : parseDigits (c :: rest) 0 = some (decimalValue (c :: rest)) := by
      rw [parseDigits_eq, if_pos hall]; rfl
    have hr2 : ¬ decimalValue (c :: rest) ≥ 2 ^ (intSize - 1) := by
      simp only [intSize]; omega
    simp only [Atoi, h43, h45, or_self, if_false, decide_False, hval]
    simp [hr2]

theorem decimalValue_append_singleton (xs : GoString) (d : Nat) :
    decimalValue (xs ++ [d]) = decimalValue xs * 10 + (d - 48) := by
  simp [decimalValue, List.foldl_append]

theorem formatDecimal_spec (fuel u : Nat) (h : u ≤ fuel) :
    isDecimal (formatDecimal fuel u) = true ∧ decimalValue (formatDecimal fuel u) = u := by
  induction fuel generalizing u with
  | zero =>
    have hu : u = 0 := by omega
    subst hu
    decide
  | succ fuel ih =>
    by_cases hlt : u < 10
    · simp only [formatDecimal, if_pos hlt]
      constructor
      · simp [isDecimal, isDigit]
        omega
      · simp [decimalValue]
    · simp only [formatDecimal, if_neg hlt]
      obtain ⟨h1, h2⟩ := ih (u / 10) (by omega)
      constructor
      · simp only [isDecimal, Bool.and_eq_true, decide_eq_true_eq] at h1 ⊢
        refine ⟨by simp, ?_⟩
        rw [List.all_append, h1.2]
        simp [isDigit]
        omega
      · rw [decimalValue_append_singleton, h2]
        omega

theorem Atoi_Sprint (u : Nat) (h : u < 2 ^ 63) : Atoi (Sprint u) = some (u : Int) := by
  obtain ⟨h1, h2⟩ := formatDecimal_spec u u (le_refl u)
  have := Atoi_of_decimal (Sprint u) h1 (by rw [Sprint, h2]; exact h)
  rw [this, Sprint, h2]

theorem uint64_natCast (n : Nat) (h : n < 2 ^ 64) : uint64 (n : Int) = n := by
  unfold uint64
  have h1 : ((n : Int)) % (2 : Int) ^ 64 = (n : Int) := by
    apply Int.emod_eq_of_lt
    · exact Int.natCast_nonneg n
    · exact_mod_cast h
  rw [h1]
  exact Int.toNat_natCast n

theorem getIDLoop_of_all_fail (l : List GoString) (h : ∀ x ∈ l, Atoi x = none) :
    getIDLoop l = 0 := by
  induction l with
  | nil => rfl
  | cons x xs ih =>
    have hx : Atoi x = none := h x (List.mem_cons_self x xs)
    simp only [getIDLoop, hx]
    exact ih (fun y hy => h y (List.mem_cons_of_mem x hy))

theorem getIDLoop_skip (pre l : List GoString) (h : ∀ x ∈ pre, Atoi x = none) :
    getIDLoop (pre ++ l) = getIDLoop l := by
  induction pre with
  | nil => rfl
  | cons x xs ih =>
    have hx : Atoi x = none := h x (List.mem_cons_self x xs)
    simp only [List.cons_append, getIDLoop, hx]
    exact ih (fun y hy => h y (List.mem_cons_of_mem x hy))

theorem getIDs_eq (ctx : Context) (md : MD) (h : metadata.FromContext ctx = some md) :
    getIDs ctx = (getID md traceIDKey, getID md parentIDKey) := by
  have h1 : ∀ n : Nat, (if n > 0 then n else 0) = n := by
    intro n
    by_cases hn : n > 0
    · simp [hn]
    · have : n = 0 := by omega
      simp [this]
  simp only [getIDs, h, h1]

theorem MD.index_of_lookup_none (md : MD) (k : GoString) (h : md.lookup k = none) :
    md.index k = [] := by
  simp [MD.index, h]

/-! ## Metadata maps -/

theorem lookup_foldl_joinStep (l : List (Sigma (fun _ : GoString => List GoString)))
    (hl : l.NodupKeys) (out : MD) (k : GoString) :
    (l.foldl metadata.joinStep out).lookup k =
      match List.dlookup k l with
      | none => out.lookup k
      | some v => some (out.index k ++ v) := by
  induction l generalizing out with
  | nil => simp
  | cons e l ih =>
    obtain ⟨hnot, hl2⟩ := List.nodupKeys_cons.mp hl
    rw [List.foldl_cons, ih hl2]
    by_cases hk : k = e.1
    · subst hk
      have hnone : List.dlookup e.1 l = none := List.dlookup_eq_none.mpr hnot
      obtain ⟨ek, ev⟩ := e
      simp [hnone, metadata.joinStep, AList.lookup_insert, List.dlookup_cons_eq]
    · rw [List.dlookup_cons_ne l e hk]
      have h1 : (metadata.joinStep out e).lookup k = out.lookup k := by
        simp [metadata.joinStep, AList.lookup_insert_ne hk]
      have h2 : (metadata.joinStep out e).index k = out.index k := by
        simp [MD.index, h1]
      rw [h1, h2]

theorem lookup_Join_pair (a b : MD) (k : GoString) :
    (metadata.Join [a, b]).lookup k =
      match a.lookup k, b.lookup k with
      | none, none => none
      | some x, none => some x
      | none, some y => some y
      | some x, some y => some (x ++ y) := by
  simp only [metadata.Join, List.foldl_cons, List.foldl_nil]
  rw [lookup_foldl_joinStep b.entries b.nodupKeys, lookup_foldl_joinStep a.entries a.nodupKeys]
  simp only [MD.index, lookup_foldl_joinStep a.entries a.nodupKeys]
  have ha : List.dlookup k a.entries = a.lookup k := rfl
  have hb : List.dlookup k b.entries = b.lookup k := rfl
  rw [ha, hb]
  cases a.lookup k <;> cases b.lookup k <;> simp [AList.lookup_empty]

theorem traceIDKey_ne_parentIDKey : traceIDKey ≠ parentIDKey := by decide

theorem lookup_New_ids (x y : GoString) (k : GoString) :
    (metadata.New [(traceIDKey, x), (parentIDKey, y)]).lookup k =
      if k = parentIDKey then some [y] else if k = traceIDKey then some [x] else none := by
  have ht : toLower traceIDKey = traceIDKey := by decide
  have hp : toLower parentIDKey = parentIDKey := by decide
  have hpt : parentIDKey ≠ traceIDKey := fun h => traceIDKey_ne_parentIDKey h.symm
  have e1 : MD.index (∅ : MD) traceIDKey = [] := by
    simp only [MD.index, AList.lookup_empty, Option.getD_none]
  have e2 : ∀ v, MD.index (AList.insert traceIDKey v (∅ : MD)) parentIDKey = [] := by
    intro v
    simp only [MD.index, AList.lookup_insert_ne hpt, AList.lookup_empty, Option.getD_none]
  simp only [metadata.New, List.foldl_cons, List.foldl_nil, ht, hp, e1, e2, List.nil_append]
  by_cases h1 : k = parentIDKey
  · subst h1
    rw [AList.lookup_insert, if_pos rfl]
  · rw [AList.lookup_insert_ne h1, if_neg h1]
    by_cases h2 : k = traceIDKey
    · subst h2
      rw [AList.lookup_insert, if_pos rfl]
    · rw [AList.lookup_insert_ne h2, if_neg h2, AList.lookup_empty]

/-! ## Claims on propagation -/

/-- C1 (evaluation at a failing input): for the span with trace id `2^63` and
parent id 7, extraction after injection into the empty context gives `(0, 7)`
and not the pair of the span: `setIDs` writes the decimal form of `2^63`, on
which `strconv.Atoi` reports a range error. The same holds when the context
carries metadata without any entry. -/
theorem getIDs_setIDs_emptyCtx_at_two_pow_63 :
    (spanWithIDs 9223372036854775808 7).TraceID < 2 ^ 64 ∧
    Sprint 9223372036854775808 = ascii "9223372036854775808" ∧
    Atoi (ascii "9223372036854775808") = none ∧
    getIDs (setIDs (some (spanWithIDs 9223372036854775808 7)) emptyCtx) = (0, 7) ∧
    getIDs (setIDs (some (spanWithIDs 9223372036854775808 7)) emptyCtx) ≠
      ((spanWithIDs 9223372036854775808 7).TraceID,
        (spanWithIDs 9223372036854775808 7).ParentID) ∧
    getIDs (setIDs (some (spanWithIDs 9223372036854775808 7)) (ctxWithMD ∅)) = (0, 7) := by
  decide

/-- C2 (counterexample): under the trace-id key the first value `"abc"` fails
to parse and a later value `"5"` parses; the extracted trace id is 5, not 0. -/
theorem getIDs_first_value_unparsable_later_parsable :
    Atoi (ascii "abc") = none ∧
    (ctxWithMD (mdSingle traceIDKey [ascii "abc", ascii "5"])).md.map
      (fun md => md.index traceIDKey) = some [ascii "abc", ascii "5"] ∧
    (getIDs (ctxWithMD (mdSingle traceIDKey [ascii "abc", ascii "5"]))).1 = 5 := by
  decide

/-- C2 (amended): for each reserved key the extracted id is the unsigned
value of the first value under that key that parses, the values before it that
are not numeric being skipped (stated for a digit string below `2^63`); it is 0
when no value under the key is numeric, and when the key is absent. -/
theorem getID_first_parsing_value (ctx : Context) (md : MD)
    (hctx : metadata.FromContext ctx = some md) :
    getIDs ctx = (getID md traceIDKey, getID md parentIDKey) ∧
    ∀ key : GoString,
      (∀ pre v post, md.index key = pre ++ v :: post →
        (∀ x ∈ pre, isNumeric x = false) → isDecimal v = true → decimalValue v < 2 ^ 63 →
        getID md key = decimalValue v) ∧
      ((∀ x ∈ md.index key, isNumeric x = false) → getID md key = 0) ∧
      (md.lookup key = none → getID md key = 0) := by
  refine ⟨getIDs_eq ctx md hctx, fun key => ⟨?_, ?_, ?_⟩⟩
  · intro pre v post hidx hpre hv hr
    have hskip : getIDLoop (pre ++ v :: post) = getIDLoop (v :: post) :=
      getIDLoop_skip pre (v :: post) (fun x hx => Atoi_of_not_numeric x (hpre x hx))
    have h64 : decimalValue v < 2 ^ 64 := by omega
    rw [getID, hidx, hskip]
    simp only [getIDLoop, Atoi_of_decimal v hv hr]
    exact uint64_natCast _ h64
  · intro hall
    exact getIDLoop_of_all_fail _ (fun x hx => Atoi_of_not_numeric x (hall x hx))
  · intro hnone
    rw [getID, MD.index_of_lookup_none md key hnone]
    rfl

/-- Witness of C2 (amended): trace-id values `"abc"`, `"5"`, `"7"`. -/
theorem getID_first_parsing_value_witness :
    getID (mdSingle traceIDKey [ascii "abc", ascii "5", ascii "7"]) traceIDKey = 5 :=
  ((getID_first_parsing_value
      (ctxWithMD (mdSingle traceIDKey [ascii "abc", ascii "5", ascii "7"]))
      (mdSingle traceIDKey [ascii "abc", ascii "5", ascii "7"]) rfl).2 traceIDKey).1
    [ascii "abc"] (ascii "5") [ascii "7"] (by decide) (by decide) (by decide) (by decide)

/-- C3 (evaluation at a failing input): the only value under the trace-id
key is `"-1"`, which is not a string of decimal digits, and the extracted trace
id is `2^64 - 1`, not 0; likewise `"+5"` gives 5. -/
theorem getIDs_signed_value :
    isDecimal (ascii "-1") = false ∧
    getIDs (ctxWithMD (mdSingle traceIDKey [ascii "-1"])) = (18446744073709551615, 0) ∧
    isDecimal (ascii "+5") = false ∧
    getIDs (ctxWithMD (mdSingle traceIDKey [ascii "+5"])) = (5, 0) := by
  decide

/-- C4: a context without metadata, and a context whose metadata holds
neither reserved key, give `(0, 0)`; the id of an absent reserved key is 0
whatever is stored under the other key. -/
theorem getIDs_absent (ctx : Context) :
    (metadata.FromContext ctx = none → getIDs ctx = (0, 0)) ∧
    (∀ md, metadata.FromContext ctx = some md → md.lookup traceIDKey = none →
      md.lookup parentIDKey = none → getIDs ctx = (0, 0)) ∧
    (∀ md, metadata.FromContext ctx = some md → md.lookup traceIDKey = none →
      (getIDs ctx).1 = 0) ∧
    (∀ md, metadata.FromContext ctx = some md → md.lookup parentIDKey = none →
      (getIDs ctx).2 = 0) := by
  have hz : ∀ (md : MD) (k : GoString), md.lookup k = none → getID md k = 0 := by
    intro md k hk
    rw [getID, MD.index_of_lookup_none md k hk]
    rfl
  refine ⟨?_, ?_, ?_, ?_⟩
  · intro h
    simp only [getIDs, h]
  · intro md h ht hp
    rw [getIDs_eq ctx md h, hz md _ ht, hz md _ hp]
  · intro md h ht
    rw [getIDs_eq ctx md h, hz md _ ht]
  · intro md h hp
    rw [getIDs_eq ctx md h, hz md _ hp]

/-- Witness of C4: a context whose metadata holds only the key `user-agent`. -/
theorem getIDs_absent_witness :
    getIDs (ctxWithMD (mdSingle (ascii "user-agent") [ascii "12"])) = (0, 0) :=
  (getIDs_absent (ctxWithMD (mdSingle (ascii "user-agent") [ascii "12"]))).2.1
    (mdSingle (ascii "user-agent") [ascii "12"]) rfl (by decide) (by decide)

/-- C5 (evaluation at a failing input): the context already holds `"7"` and
`"8"` under the two reserved keys and the span has ids 1 and 2. After `setIDs`
the reserved keys hold the earlier values followed by the new ones, and
extraction gives `(7, 8)`, not `(1, 2)`. -/
theorem setIDs_keeps_earlier_reserved_values :
    (metadata.FromContext (setIDs (some (spanWithIDs 1 2))
        (ctxWithMD ((mdSingle traceIDKey [ascii "7"]).insert parentIDKey [ascii "8"])))).map
      (fun md => (md.index traceIDKey, md.index parentIDKey)) =
      some ([ascii "7", ascii "1"], [ascii "8", ascii "2"]) ∧
    getIDs (setIDs (some (spanWithIDs 1 2))
        (ctxWithMD ((mdSingle traceIDKey [ascii "7"]).insert parentIDKey [ascii "8"]))) =
      (7, 8) := by
  decide

/-- C6: for a span with nonzero trace id, the metadata of the context that
`setIDs` returns holds, under every key other than the two reserved keys,
exactly the list of values the original metadata holds there (no entry when
the original has none or the context has no metadata), so its keys are those
of the original plus the two reserved keys; the active span is untouched. -/
theorem setIDs_preserves_unrelated (s : Span) (ctx : Context) (hs : s.TraceID ≠ 0) :
    ∃ md2, metadata.FromContext (setIDs (some s) ctx) = some md2 ∧
      (∀ k, k ≠ traceIDKey → k ≠ parentIDKey →
        md2.lookup k = (metadata.FromContext ctx).bind (fun md => md.lookup k)) ∧
      (∀ k, k ∈ md2 →
        k = traceIDKey ∨ k = parentIDKey ∨ ∃ md, metadata.FromContext ctx = some md ∧ k ∈ md) ∧
      (∀ k md, metadata.FromContext ctx = some md → k ∈ md → k ∈ md2) ∧
      traceIDKey ∈ md2 ∧ parentIDKey ∈ md2 ∧
      (setIDs (some s) ctx).span = ctx.span := by
  have key : ∀ k, k ≠ traceIDKey → k ≠ parentIDKey →
      (metadata.New [(traceIDKey, Sprint s.TraceID), (parentIDKey, Sprint s.ParentID)]).lookup k
        = none := by
    intro k h1 h2
    rw [lookup_New_ids, if_neg h2, if_neg h1]
  have hT := lookup_New_ids (Sprint s.TraceID) (Sprint s.ParentID) traceIDKey
  have hP := lookup_New_ids (Sprint s.TraceID) (Sprint s.ParentID) parentIDKey
  rw [if_neg traceIDKey_ne_parentIDKey, if_pos rfl] at hT
  rw [if_pos rfl] at hP
  cases hmd : metadata.FromContext ctx with
  | none =>
    have hres : setIDs (some s) ctx = metadata.NewContext ctx
        (metadata.New [(traceIDKey, Sprint s.TraceID), (parentIDKey, Sprint s.ParentID)]) := by
      simp only [setIDs, hs, if_false, hmd]
    refine ⟨_, by rw [hres]; rfl, ?_, ?_, ?_, ?_, ?_, by rw [hres]; rfl⟩
    · intro k h1 h2
      simpa using key k h1 h2
    · intro k hk
      by_cases h1 : k = traceIDKey
      · exact Or.inl h1
      · by_cases h2 : k = parentIDKey
        · exact Or.inr (Or.inl h2)
        · exact absurd hk (AList.lookup_eq_none.mp (key k h1 h2))
    · intro k md h
      cases h
    · exact AList.lookup_isSome.mp (by rw [hT]; rfl)
    · exact AList.lookup_isSome.mp (by rw [hP]; rfl)
  | some existing =>
    have hres : setIDs (some s) ctx = metadata.NewContext ctx (metadata.Join [existing,
        metadata.New [(traceIDKey, Sprint s.TraceID), (parentIDKey, Sprint s.ParentID)]]) := by
      simp only [setIDs, hs, if_false, hmd]
    have hlk : ∀ k, k ≠ traceIDKey → k ≠ parentIDKey →
        (metadata.Join [existing, metadata.New
          [(traceIDKey, Sprint s.TraceID), (parentIDKey, Sprint s.ParentID)]]).lookup k
          = existing.lookup k := by
      intro k h1 h2
      rw [lookup_Join_pair, key k h1 h2]
      cases existing.lookup k <;> rfl
    have hsome : ∀ k v, (metadata.New
          [(traceIDKey, Sprint s.TraceID), (parentIDKey, Sprint s.ParentID)]).lookup k = some v →
        k ∈ metadata.Join [existing, metadata.New
          [(traceIDKey, Sprint s.TraceID), (parentIDKey, Sprint s.ParentID)]] := by
      intro k v hv
      apply AList.lookup_isSome.mp
      rw [lookup_Join_pair, hv]
      cases existing.lookup k <;> rfl
    refine ⟨_, by rw [hres]; rfl, ?_, ?_, ?_, hsome _ _ hT, hsome _ _ hP, by rw [hres]; rfl⟩
    · intro k h1 h2
      simpa using hlk k h1 h2
    · intro k hk
      by_cases h1 : k = traceIDKey
      · exact Or.inl h1
      · by_cases h2 : k = parentIDKey
        · exact Or.inr (Or.inl h2)
        · refine Or.inr (Or.inr ⟨existing, rfl, ?_⟩)
          have := AList.lookup_isSome.mpr hk
          rw [hlk k h1 h2] at this
          exact AList.lookup_isSome.mp this
    · intro k md h hk
      cases h
      apply AList.lookup_isSome.mp
      have hk2 := AList.lookup_isSome.mpr hk
      rw [lookup_Join_pair]
      cases hx : existing.lookup k with
      | none => rw [hx] at hk2; cases hk2
      | some x =>
        cases (metadata.New
          [(traceIDKey, Sprint s.TraceID), (parentIDKey, Sprint s.ParentID)]).lookup k <;> rfl

/-- Witness of C6: the span with ids 1 and 2 and a context that holds the key
`user-agent`. -/
theorem setIDs_preserves_unrelated_witness :
    ∃ md2, metadata.FromContext (setIDs (some (spanWithIDs 1 2))
        (ctxWithMD (mdSingle (ascii "user-agent") [ascii "12"]))) = some md2 ∧
      md2.lookup (ascii "user-agent") = some [ascii "12"] := by
  obtain ⟨md2, h1, h2, _⟩ := setIDs_preserves_unrelated (spanWithIDs 1 2)
    (ctxWithMD (mdSingle (ascii "user-agent") [ascii "12"])) (by decide)
  refine ⟨md2, h1, ?_⟩
  rw [h2 (ascii "user-agent") (by decide) (by decide)]
  decide

/-- C7: when the span is nil or its trace id is 0, `setIDs` returns the
context it was given, whatever the parent id of the span. -/
theorem setIDs_nil_or_zero (span : Option Span) (ctx : Context)
    (h : span = none ∨ ∃ s, span = some s ∧ s.TraceID = 0) : setIDs span ctx = ctx := by
  rcases h with h | ⟨s, h, hz⟩
  · subst h; rfl
  · subst h; simp only [setIDs, hz, if_true]

/-- Witness of C7: a span with trace id 0 and parent id 9, and a context that
holds one metadata entry; no reserved key appears. -/
theorem setIDs_nil_or_zero_witness :
    (setIDs (some (spanWithIDs 0 9)) (ctxWithMD (mdSingle (ascii "user-agent") [ascii "12"])) =
      ctxWithMD (mdSingle (ascii "user-agent") [ascii "12"])) ∧
    (metadata.FromContext (setIDs (some (spanWithIDs 0 9))
      (ctxWithMD (mdSingle (ascii "user-agent") [ascii "12"])))).map
        (fun md => md.lookup traceIDKey) = some none :=
  ⟨setIDs_nil_or_zero (some (spanWithIDs 0 9)) _ (Or.inr ⟨spanWithIDs 0 9, rfl, rfl⟩),
    by decide⟩

/-! ## Method identifiers -/

theorem lastIndexLoop_bounds (s : GoString) (c : Nat) (i : Nat) :
    -1 ≤ lastIndexLoop s c i ∧ lastIndexLoop s c i < (i : Int) := by
  induction i with
  | zero => simp [lastIndexLoop]
  | succ i ih =>
    simp only [lastIndexLoop]
    split
    · constructor <;> push_cast <;> omega
    · constructor
      · exact ih.1
      · push_cast; omega

theorem lastIndexLoop_append (pre post : GoString) (c : Nat) (hc : c ∉ post) (j : Nat)
    (hj : j ≤ post.length) :
    lastIndexLoop (pre ++ c :: post) c (pre.length + 1 + j) = (pre.length : Int) := by
  induction j with
  | zero =>
    simp only [Nat.add_zero, lastIndexLoop]
    have : (pre ++ c :: post).get? pre.length = some c := by
      rw [List.get?_eq_getElem?, List.getElem?_append_right (le_refl _)]
      simp
    rw [if_pos this]
  | succ j ih =>
    have hlt : j < post.length := by omega
    have hget : (pre ++ c :: post).get? (pre.length + 1 + j) = some (post.get ⟨j, hlt⟩) := by
      rw [List.get?_eq_getElem?, List.getElem?_append_right (by omega)]
      have : pre.length + 1 + j - pre.length = j + 1 := by omega
      rw [this, List.getElem?_cons_succ, List.getElem?_eq_getElem hlt]
      rfl
    have hne : post.get ⟨j, hlt⟩ ≠ c := by
      intro h
      exact hc (h ▸ List.get_mem post j hlt)
    have hstep : pre.length + 1 + (j + 1) = (pre.length + 1 + j) + 1 := by omega
    rw [hstep, lastIndexLoop, hget]
    have : ¬ (some (post.get ⟨j, hlt⟩) = some c) := by
      intro h
      exact hne (Option.some.inj h)
    rw [if_neg this]
    exact ih (by omega)

theorem LastIndexByte_append (pre post : GoString) (c : Nat) (hc : c ∉ post) :
    LastIndexByte (pre ++ c :: post) c = (pre.length : Int) := by
  have h := lastIndexLoop_append pre post c hc post.length (le_refl _)
  have hlen : (pre ++ c :: post).length = pre.length + 1 + post.length := by
    simp only [List.length_append, List.length_cons]; omega
  rw [LastIndexByte, hlen]
  exact h

theorem parseMethod_total (method : GoString) : ∃ sr, parseMethod method = some sr := by
  have hb := lastIndexLoop_bounds method 47 method.length
  unfold parseMethod
  simp only [LastIndexByte]
  by_cases hidx : lastIndexLoop method 47 method.length > 0
  · rw [if_pos hidx]
    have h1 : slice method (if method.length > 0 ∧ method.get? 0 = some 47 then 1 else 0)
        (lastIndexLoop method 47 method.length) = some ((method.take
          (lastIndexLoop method 47 method.length).toNat).drop
          (if method.length > 0 ∧ method.get? 0 = some 47 then (1 : Int) else 0).toNat) := by
      unfold slice
      rw [if_pos]
      refine ⟨?_, ?_, ?_⟩
      · split <;> omega
      · split <;> omega
      · omega
    have h2 : slice method (lastIndexLoop method 47 method.length + 1) method.length =
        some ((method.take (method.length : Int).toNat).drop
          (lastIndexLoop method 47 method.length + 1).toNat) := by
      unfold slice
      rw [if_pos]
      refine ⟨?_, ?_, ?_⟩ <;> omega
    rw [h1, h2]
    exact ⟨_, rfl⟩
  · rw [if_neg hidx]
    exact ⟨_, rfl⟩

theorem slice_eq (s : GoString) (lo hi : Nat) (h1 : lo ≤ hi) (h2 : hi ≤ s.length) :
    slice s (lo : Int) (hi : Int) = some ((s.take hi).drop lo) := by
  unfold slice
  rw [if_pos ⟨by omega, by omega, by omega⟩]
  simp only [Int.toNat_natCast]

/-- C10 (counterexample): `/svc/m` contains a `/`; what stands before its last
`/` is `/svc`, yet the service returned is `svc`; and for `/m` the resource
returned is empty, not `m`. -/
theorem parseMethod_not_plain_split :
    47 ∉ ascii "m" ∧
    parseMethod (ascii "/svc" ++ 47 :: ascii "m") = some (ascii "svc", ascii "m") ∧
    parseMethod (ascii "/svc" ++ 47 :: ascii "m") ≠ some (ascii "/svc", ascii "m") ∧
    parseMethod ([] ++ 47 :: ascii "m") = some ([], []) ∧
    parseMethod ([] ++ 47 :: ascii "m") ≠ some ([], ascii "m") := by
  decide

/-- C10 (amended): for a method identifier `pre ++ "/" ++ post` whose last `/`
is the one shown (`post` holds no `/`): when the last `/` is not the first byte,
the service is `pre` without its leading `/` if it has one, and the resource is
`post`; when the last `/` is the first byte, both are empty. -/
theorem parseMethod_split_last (pre post : GoString) (hpost : 47 ∉ post) :
    parseMethod (pre ++ 47 :: post) =
      some (if pre = [] then ([], []) else (dropLeadingSlash pre, post)) := by
  have hidx := LastIndexByte_append pre post 47 hpost
  unfold parseMethod
  simp only [hidx]
  by_cases hpre : pre = []
  · subst hpre
    simp
  · have hlen : 0 < pre.length := List.length_pos.mpr hpre
    have hpos : ((pre.length : Int) > 0) := by exact_mod_cast hlen
    rw [if_pos hpos, if_neg hpre]
    have hmlen : (pre ++ 47 :: post).length = pre.length + 1 + post.length := by
      simp only [List.length_append, List.length_cons]; omega
    have hhead : (pre ++ 47 :: post).get? 0 = pre.head? := by
      cases pre with
      | nil => exact absurd rfl hpre
      | cons a t => rfl
    have hres : slice (pre ++ 47 :: post) ((pre.length : Int) + 1)
        ((pre ++ 47 :: post).length : Int) = some post := by
      have h := slice_eq (pre ++ 47 :: post) (pre.length + 1) (pre ++ 47 :: post).length
        (by omega) (le_refl _)
      have hcast : ((pre.length + 1 : Nat) : Int) = (pre.length : Int) + 1 := by push_cast; rfl
      rw [hcast] at h
      rw [h, List.take_length]
      have : pre ++ 47 :: post = (pre ++ [47]) ++ post := by simp
      rw [this]
      have hl : pre.length + 1 = (pre ++ [47]).length := by simp
      rw [hl, List.drop_left]
    have htake : (pre ++ 47 :: post).take pre.length = pre := List.take_left pre (47 :: post)
    by_cases h47 : pre.head? = some 47
    · have hstart : ((pre ++ 47 :: post).length > 0 ∧ (pre ++ 47 :: post).get? 0 = some 47) := by
        constructor
        · omega
        · rw [hhead]; exact h47
      rw [if_pos hstart]
      have hsvc := slice_eq (pre ++ 47 :: post) 1 pre.length (by omega) (by omega)
      have hone : ((1 : Nat) : Int) = 1 := rfl
      rw [hone] at hsvc
      rw [hsvc, hres, htake]
      simp only [dropLeadingSlash, if_pos h47, List.drop_one]
    · have hstart : ¬ ((pre ++ 47 :: post).length > 0 ∧
          (pre ++ 47 :: post).get? 0 = some 47) := by
        intro h
        rw [hhead] at h
        exact h47 h.2
      rw [if_neg hstart]
      have hsvc := slice_eq (pre ++ 47 :: post) 0 pre.length (by omega) (by omega)
      have hzero : ((0 : Nat) : Int) = 0 := rfl
      rw [hzero] at hsvc
      rw [hsvc, hres, htake]
      simp only [dropLeadingSlash, if_neg h47, List.drop_zero]

/-- Witness of C10 (amended): the identifier `/helloworld.Greeter/SayHello`. -/
theorem parseMethod_split_last_witness :
    47 ∉ ascii "SayHello" ∧
    parseMethod (ascii "/helloworld.Greeter" ++ 47 :: ascii "SayHello") =
      some (ascii "helloworld.Greeter", ascii "SayHello") :=
  ⟨by decide, (parseMethod_split_last (ascii "/helloworld.Greeter") (ascii "SayHello")
    (by decide)).trans (by decide)⟩

/-! ## The server side -/

theorem serverSpan_eq (w : World) (ctx : Context) (method svc res : GoString)
    (hpm : parseMethod method = some (svc, res)) :
    ∃ w2, serverSpan w ctx method = some (w.allocated, w2) ∧
      w2.finishLog = w.finishLog ∧
      (w2.heap w.allocated).SpanID = w.ids (w.drawn + 1) ∧
      (w2.heap w.allocated).TraceID =
        (if (getIDs ctx).1 ≠ 0 ∧ (getIDs ctx).2 ≠ 0 then (getIDs ctx).1 else w.ids w.drawn) ∧
      (w2.heap w.allocated).ParentID =
        (if (getIDs ctx).1 ≠ 0 ∧ (getIDs ctx).2 ≠ 0 then (getIDs ctx).2 else 0) := by
  rcases hg : getIDs ctx with ⟨t, p⟩
  by_cases hc : t ≠ 0 ∧ p ≠ 0
  · simp only [serverSpan, hpm, hg, NewRootSpan, if_pos hc]
    refine ⟨_, rfl, ?_, ?_, ?_, ?_⟩ <;> simp [SetMeta, World.modify]
  · simp only [serverSpan, hpm, hg, NewRootSpan, if_neg hc]
    refine ⟨_, rfl, ?_, ?_, ?_, ?_⟩ <;> simp [SetMeta, World.modify]

/-- C8 (counterexample): the generator hands out the identifier 5 and the
inbound context carries the trace id 5 and no parent id, so the extracted pair
is `(5, 0)`. The span returned has trace id 5 and parent id 0, that is the
extracted pair, although the extracted parent id is 0. -/
theorem serverSpan_same_ids_without_parent :
    (freshRoot world0 (ascii "/svc/m")).map (fun r => (r.TraceID, r.ParentID, r.SpanID)) =
      some (5, 0, 5) ∧
    getIDs (ctxWithMD (mdSingle traceIDKey [ascii "5"])) = (5, 0) ∧
    (serverSpanResult world0 (ctxWithMD (mdSingle traceIDKey [ascii "5"]))
        (ascii "/svc/m")).map (fun s => (s.TraceID, s.ParentID)) = some (5, 0) := by
  decide

/-- C8 (amended): `serverSpan` returns a span `s` built on the fresh root span
`r` (whose parent id is 0). With `(t, p)` the extracted pair: if `t` and `p` are
both nonzero then `s` has trace id `t` and parent id `p`; otherwise the trace id
and parent id of `s` are those of `r`; the span id of `s` is that of `r` in both
cases; and whenever the trace id of `r` differs from `t`, `s` has trace id `t`
and parent id `p` if and only if `t` and `p` are both nonzero. -/
theorem serverSpan_continues_trace (w : World) (ctx : Context) (method : GoString) :
    ∃ r s, freshRoot w method = some r ∧ serverSpanResult w ctx method = some s ∧
      r.ParentID = 0 ∧ s.SpanID = r.SpanID ∧
      ((getIDs ctx).1 ≠ 0 ∧ (getIDs ctx).2 ≠ 0 →
        s.TraceID = (getIDs ctx).1 ∧ s.ParentID = (getIDs ctx).2) ∧
      (¬ ((getIDs ctx).1 ≠ 0 ∧ (getIDs ctx).2 ≠ 0) →
        s.TraceID = r.TraceID ∧ s.ParentID = r.ParentID) ∧
      (r.TraceID ≠ (getIDs ctx).1 →
        ((s.TraceID = (getIDs ctx).1 ∧ s.ParentID = (getIDs ctx).2) ↔
          ((getIDs ctx).1 ≠ 0 ∧ (getIDs ctx).2 ≠ 0))) := by
  obtain ⟨⟨svc, res⟩, hpm⟩ := parseMethod_total method
  obtain ⟨w2, hs, _, hsid, htid, hpid⟩ := serverSpan_eq w ctx method svc res hpm
  refine ⟨(NewRootSpan w (ascii "grpc.server") svc res).2.heap
      (NewRootSpan w (ascii "grpc.server") svc res).1, w2.heap w.allocated,
    by simp only [freshRoot, hpm, Option.map_some'],
    by simp only [serverSpanResult, hs, Option.map_some'], ?_, ?_, ?_, ?_, ?_⟩
  · simp [NewRootSpan]
  · simp [NewRootSpan, hsid]
  · intro hc
    rw [htid, hpid, if_pos hc, if_pos hc]
    exact ⟨rfl, rfl⟩
  · intro hc
    rw [htid, hpid, if_neg hc, if_neg hc]
    simp [NewRootSpan]
  · intro hne
    have hr : w.ids w.drawn ≠ (getIDs ctx).1 := by simpa [NewRootSpan] using hne
    constructor
    · intro hst
      by_contra hc
      rw [htid, if_neg hc] at hst
      exact hr hst.1
    · intro hc
      rw [htid, hpid, if_pos hc, if_pos hc]
      exact ⟨rfl, rfl⟩

/-- C9 (counterexample): tracing is enabled and the handler panics. The
closure ends with that panic: the server span, created at address 0, is left
unfinished and `FinishWithErr` was never called. -/
theorem UnaryServerInterceptor_handler_panics :
    world0.enabled = true ∧
    (UnaryServerInterceptor world0 emptyCtx 3 { FullMethod := ascii "/svc/m" }
      panickingHandler).results = none ∧
    (UnaryServerInterceptor world0 emptyCtx 3 { FullMethod := ascii "/svc/m" }
      panickingHandler).world.allocated = 1 ∧
    ((UnaryServerInterceptor world0 emptyCtx 3 { FullMethod := ascii "/svc/m" }
      panickingHandler).world.heap 0).finished = false ∧
    (UnaryServerInterceptor world0 emptyCtx 3 { FullMethod := ascii "/svc/m" }
      panickingHandler).world.finishLog = [] := by
  decide

/-- C9 (amended): with tracing enabled, `serverSpan` finishes nothing and the
handler is called on the context that binds the server span. When the handler
returns, the interceptor returns its response and its error, and calls
`FinishWithErr` once, after the handler, on the server span and with the error
of the handler, which leaves the span finished with `Error = 1` when the error
is non-nil and `Error = 0` when it is nil, every other span object being as the
handler left it. When the handler panics, the interceptor ends with that panic
in the state the handler left: the span is not finished. -/
theorem UnaryServerInterceptor_finishes {Req Resp : Type} (w : World) (ctx : Context)
    (req : Req) (info : UnaryServerInfo) (handler : UnaryHandler Req Resp)
    (hen : w.enabled = true) :
    ∃ span w1, serverSpan w ctx info.FullMethod = some (span, w1) ∧
      w1.finishLog = w.finishLog ∧
      (∀ resp err w2,
        handler (ContextWithSpan ctx span) req w1 = Outcome.returned (resp, err) w2 →
        ∃ w3, UnaryServerInterceptor w ctx req info handler = Outcome.returned (resp, err) w3 ∧
          w3.finishLog = w2.finishLog ++ [(span, err.isSome)] ∧
          (w3.heap span).Error = (if err = none then 0 else 1) ∧
          (w3.heap span).finished = true ∧
          (∀ a, a ≠ span → w3.heap a = w2.heap a)) ∧
      (∀ w2, handler (ContextWithSpan ctx span) req w1 = Outcome.panicked w2 →
        UnaryServerInterceptor w ctx req info handler = Outcome.panicked w2) := by
  obtain ⟨⟨svc, res⟩, hpm⟩ := parseMethod_total info.FullMethod
  obtain ⟨w1, hs, hlog, _⟩ := serverSpan_eq w ctx info.FullMethod svc res hpm
  refine ⟨w.allocated, w1, hs, hlog, ?_, ?_⟩
  · intro resp err w2 hh
    refine ⟨FinishWithErr w2 w.allocated err, ?_, ?_, ?_, ?_, ?_⟩
    · simp only [UnaryServerInterceptor, hen, Bool.true_eq_false, if_false, hs, hh]
    · simp [FinishWithErr, World.modify]
    · cases err <;> simp [FinishWithErr, World.modify]
    · simp [FinishWithErr, World.modify]
    · intro a ha
      simp [FinishWithErr, World.modify, ha]
  · intro w2 hh
    simp only [UnaryServerInterceptor, hen, Bool.true_eq_false, if_false, hs, hh]

/-- Witness of C9 (amended): the enabled world `world0` and a handler that
returns the response 7 and the error `boom`; the span at address 0 is finished
once, with `Error = 1`. -/
theorem UnaryServerInterceptor_finishes_witness :
    world0.enabled = true ∧
    (UnaryServerInterceptor world0 emptyCtx 3 { FullMethod := ascii "/svc/m" }
      failingHandler).results = some (7, some (ascii "boom")) ∧
    (UnaryServerInterceptor world0 emptyCtx 3 { FullMethod := ascii "/svc/m" }
      failingHandler).world.finishLog = [(0, true)] ∧
    ((UnaryServerInterceptor world0 emptyCtx 3 { FullMethod := ascii "/svc/m" }
      failingHandler).world.heap 0).Error = 1 := by
  obtain ⟨span, w1, hs, _, hret, _⟩ :=
    UnaryServerInterceptor_finishes world0 emptyCtx 3 { FullMethod := ascii "/svc/m" }
      failingHandler rfl
  obtain ⟨w3, h3, _⟩ := hret 7 (some (ascii "boom")) w1 rfl
  refine ⟨rfl, ?_, ?_, ?_⟩
  · rw [h3]; rfl
  · decide
  · decide

/-! ## More on method identifiers -/

theorem lastIndexLoop_of_not_mem (s : GoString) (c : Nat) (hc : c ∉ s) (i : Nat) :
    lastIndexLoop s c i = -1 := by
  induction i with
  | zero => rfl
  | succ i ih =>
    have hne : s.get? i ≠ some c := by
      intro h
      exact hc (List.get?_mem h)
    simp only [lastIndexLoop, if_neg hne]
    exact ih

theorem exists_last_occurrence (c : Nat) (s : GoString) (hc : c ∈ s) :
    ∃ pre post, s = pre ++ c :: post ∧ c ∉ post := by
  induction s with
  | nil => cases hc
  | cons x t ih =>
    by_cases ht : c ∈ t
    · obtain ⟨pre, post, h1, h2⟩ := ih ht
      exact ⟨x :: pre, post, by rw [h1]; rfl, h2⟩
    · have hx : c = x := by
        rcases List.mem_cons.mp hc with h | h
        · exact h
        · exact absurd h ht
      subst hx
      exact ⟨[], t, rfl, ht⟩

theorem parseMethod_of_not_mem (method : GoString) (h : 47 ∉ method) :
    parseMethod method = some ([], []) := by
  have hidx : LastIndexByte method 47 = -1 := lastIndexLoop_of_not_mem method 47 h _
  unfold parseMethod
  simp only [hidx]
  rfl

/-- C11: for every method identifier that contains no `/`, the empty one
included, `parseMethod` returns the empty service and the empty resource, and
does so without a panic. -/
theorem parseMethod_no_separator (method : GoString) (h : 47 ∉ method) :
    parseMethod method = some ([], []) ∧ parseMethod method ≠ none := by
  rw [parseMethod_of_not_mem method h]
  exact ⟨rfl, by simp⟩

/-- Witness of C11: the identifier `SayHello`; the empty identifier is covered
as well. -/
theorem parseMethod_no_separator_witness :
    47 ∉ ascii "SayHello" ∧ parseMethod (ascii "SayHello") = some ([], []) ∧
      parseMethod [] = some ([], []) :=
  ⟨by decide, (parseMethod_no_separator (ascii "SayHello") (by decide)).1,
    (parseMethod_no_separator [] (by decide)).1⟩

/-- C18: for every `svc` and every `m` without `/`,
`parseMethod("/" + svc + "/" + m) = (svc, m)`: the leading `/` is not part of
the service; and `parseMethod("/" + m) = ("", "")`: a `/` at index 0 is not a
split point. -/
theorem parseMethod_full_method (svc m : GoString) (hm : 47 ∉ m) :
    parseMethod (47 :: (svc ++ 47 :: m)) = some (svc, m) ∧
    parseMethod (47 :: m) = some ([], []) := by
  constructor
  · have h := parseMethod_split_last (47 :: svc) m hm
    simp only [List.cons_append] at h
    rw [h]
    simp [dropLeadingSlash]
  · have h := parseMethod_split_last [] m hm
    simpa using h

/-- Witness of C18: `/helloworld.Greeter/SayHello` and `/SayHello`. -/
theorem parseMethod_full_method_witness :
    47 ∉ ascii "SayHello" ∧
    parseMethod (ascii "/helloworld.Greeter/SayHello") =
      some (ascii "helloworld.Greeter", ascii "SayHello") ∧
    parseMethod (ascii "/SayHello") = some ([], []) :=
  ⟨by decide, parseMethod_full_method (ascii "helloworld.Greeter") (ascii "SayHello")
    (by decide)⟩

theorem parseStart_bounds (method : GoString) :
    0 ≤ parseStart method ∧ parseStart method ≤ 1 := by
  unfold parseStart
  split <;> constructor <;> omega

theorem slice_isSome (s : GoString) (lo hi : Int) (h0 : 0 ≤ lo) (h1 : lo ≤ hi)
    (h2 : hi ≤ (s.length : Int)) : (slice s lo hi).isSome = true := by
  unfold slice
  rw [if_pos ⟨h0, h1, h2⟩]
  rfl

theorem leadingSlash_append_dropLeadingSlash (pre : GoString) :
    leadingSlash pre ++ dropLeadingSlash pre = pre := by
  cases pre with
  | nil => rfl
  | cons a t =>
    by_cases ha : a = 47
    · subst ha; rfl
    · have h : (a :: t).head? ≠ some 47 := by
        intro h
        exact ha (Option.some.inj h)
      simp only [leadingSlash, dropLeadingSlash, if_neg h, List.nil_append]

/-- C19: `parseMethod` never panics: whenever its slice expressions are
evaluated (`idx > 0`), `0 <= start <= idx < len(method)`, so `method[start:idx]`
and `method[idx+1:]` are in bounds, and for every identifier a pair is
returned. The resource returned holds no `/`. Whenever the last `/` is at an
index above 0, `prefix + service + "/" + resource = method`, where `prefix` is
`"/"` if the identifier begins with `/` and empty otherwise. -/
theorem parseMethod_in_bounds (method : GoString) :
    (LastIndexByte method 47 > 0 →
      0 ≤ parseStart method ∧ parseStart method ≤ LastIndexByte method 47 ∧
      LastIndexByte method 47 < (method.length : Int) ∧
      (slice method (parseStart method) (LastIndexByte method 47)).isSome = true ∧
      (slice method (LastIndexByte method 47 + 1) (method.length : Int)).isSome = true) ∧
    (∃ svc res, parseMethod method = some (svc, res) ∧ 47 ∉ res ∧
      (LastIndexByte method 47 > 0 → leadingSlash method ++ svc ++ 47 :: res = method)) := by
  have hb := lastIndexLoop_bounds method 47 method.length
  have hs := parseStart_bounds method
  constructor
  · intro hidx
    have h1 : parseStart method ≤ LastIndexByte method 47 := by omega
    have h2 : LastIndexByte method 47 < (method.length : Int) := hb.2
    refine ⟨hs.1, h1, h2, slice_isSome _ _ _ hs.1 h1 (by omega), ?_⟩
    exact slice_isSome _ _ _ (by omega) (by omega) (le_refl _)
  · by_cases hmem : 47 ∈ method
    · obtain ⟨pre, post, hsplit, hpost⟩ := exists_last_occurrence 47 method hmem
      subst hsplit
      have hres := parseMethod_split_last pre post hpost
      have hidx := LastIndexByte_append pre post 47 hpost
      by_cases hpre : pre = []
      · subst hpre
        refine ⟨[], [], by simpa using hres, by simp, ?_⟩
        intro h
        rw [hidx] at h
        simp at h
      · rw [if_neg hpre] at hres
        refine ⟨dropLeadingSlash pre, post, hres, hpost, ?_⟩
        intro _
        have hhead : leadingSlash (pre ++ 47 :: post) = leadingSlash pre := by
          cases pre with
          | nil => exact absurd rfl hpre
          | cons a t => rfl
        rw [hhead, leadingSlash_append_dropLeadingSlash]
    · refine ⟨[], [], parseMethod_of_not_mem method hmem, by simp, ?_⟩
      intro h
      have hidx : LastIndexByte method 47 = -1 := lastIndexLoop_of_not_mem method 47 hmem _
      rw [hidx] at h
      simp at h

theorem parseMethod_eq_parseStart (method : GoString) :
    parseMethod method =
      if LastIndexByte method 47 > 0 then
        match slice method (parseStart method) (LastIndexByte method 47),
          slice method (LastIndexByte method 47 + 1) method.length with
        | some service, some resource => some (service, resource)
        | _, _ => none
      else some ([], []) := rfl

/-! ## Round trip of identifiers -/

theorem setIDs_index (s : Span) (ctx : Context) (hs : s.TraceID ≠ 0) :
    ∃ md2, metadata.FromContext (setIDs (some s) ctx) = some md2 ∧
      md2.index traceIDKey = ctxIndex ctx traceIDKey ++ [Sprint s.TraceID] ∧
      md2.index parentIDKey = ctxIndex ctx parentIDKey ++ [Sprint s.ParentID] ∧
      (setIDs (some s) ctx).span = ctx.span := by
  have hT := lookup_New_ids (Sprint s.TraceID) (Sprint s.ParentID) traceIDKey
  have hP := lookup_New_ids (Sprint s.TraceID) (Sprint s.ParentID) parentIDKey
  rw [if_neg traceIDKey_ne_parentIDKey, if_pos rfl] at hT
  rw [if_pos rfl] at hP
  cases hmd : metadata.FromContext ctx with
  | none =>
    have hres : setIDs (some s) ctx = metadata.NewContext ctx
        (metadata.New [(traceIDKey, Sprint s.TraceID), (parentIDKey, Sprint s.ParentID)]) := by
      simp only [setIDs, hs, if_false, hmd]
    refine ⟨_, by rw [hres]; rfl, ?_, ?_, by rw [hres]; rfl⟩
    · simp only [MD.index, hT, ctxIndex, hmd, Option.getD_some, List.nil_append]
    · simp only [MD.index, hP, ctxIndex, hmd, Option.getD_some, List.nil_append]
  | some existing =>
    have hres : setIDs (some s) ctx = metadata.NewContext ctx (metadata.Join [existing,
        metadata.New [(traceIDKey, Sprint s.TraceID), (parentIDKey, Sprint s.ParentID)]]) := by
      simp only [setIDs, hs, if_false, hmd]
    refine ⟨_, by rw [hres]; rfl, ?_, ?_, by rw [hres]; rfl⟩
    · simp only [MD.index, lookup_Join_pair, hT, ctxIndex, hmd]
      cases existing.lookup traceIDKey <;> simp
    · simp only [MD.index, lookup_Join_pair, hP, ctxIndex, hmd]
      cases existing.lookup parentIDKey <;> simp

theorem getIDLoop_Sprint (u : Nat) (h : u < 2 ^ 63) : getIDLoop [Sprint u] = u := by
  simp only [getIDLoop, Atoi_Sprint u h]
  exact uint64_natCast u (by omega)

/-- C17: for a span with `0 < trace_id < 2^63` and `parent_id < 2^63`, and a
context whose metadata, if any, holds no value under either reserved key,
`getIDs(setIDs(s, ctx))` is the pair of the span; and on every `u < 2^63` the
signed parse `strconv.Atoi` followed by `uint64` undoes `fmt.Sprint`. -/
theorem getIDs_setIDs_bounded (s : Span) (ctx : Context) (h0 : 0 < s.TraceID)
    (ht : s.TraceID < 2 ^ 63) (hp : s.ParentID < 2 ^ 63)
    (hctx : ∀ md, metadata.FromContext ctx = some md →
      md.index traceIDKey = [] ∧ md.index parentIDKey = []) :
    getIDs (setIDs (some s) ctx) = (s.TraceID, s.ParentID) ∧
    ∀ u, u < 2 ^ 63 → (Atoi (Sprint u)).map uint64 = some u := by
  constructor
  · obtain ⟨md2, hmd2, hT, hP, _⟩ := setIDs_index s ctx (by omega)
    have hcT : ctxIndex ctx traceIDKey = [] := by
      unfold ctxIndex
      cases hmd : metadata.FromContext ctx with
      | none => rfl
      | some md => exact (hctx md hmd).1
    have hcP : ctxIndex ctx parentIDKey = [] := by
      unfold ctxIndex
      cases hmd : metadata.FromContext ctx with
      | none => rfl
      | some md => exact (hctx md hmd).2
    rw [hcT, List.nil_append] at hT
    rw [hcP, List.nil_append] at hP
    rw [getIDs_eq _ md2 hmd2, getID, getID, hT, hP, getIDLoop_Sprint _ ht, getIDLoop_Sprint _ hp]
  · intro u hu
    rw [Atoi_Sprint u hu, Option.map_some', uint64_natCast u (by omega)]

/-- Witness of C17: the span with ids `2^63 - 1` and 0, and a context that
holds the key `user-agent` only. -/
theorem getIDs_setIDs_bounded_witness :
    getIDs (setIDs (some (spanWithIDs 9223372036854775807 0))
      (ctxWithMD (mdSingle (ascii "user-agent") [ascii "12"]))) = (9223372036854775807, 0) :=
  (getIDs_setIDs_bounded (spanWithIDs 9223372036854775807 0)
    (ctxWithMD (mdSingle (ascii "user-agent") [ascii "12"])) (by decide) (by decide) (by decide)
    (by
      intro md h
      cases h
      exact ⟨by decide, by decide⟩)).1

/-! ## The disabled switch and the client side -/

/-- C12: when the tracer reports disabled, the interceptor ends as the
handler ends (its response and error when it returns) on the original context,
the original request and the state as it was: no span object has been created,
nothing is bound into the context, nothing is finished, and the handler has
run once. -/
theorem UnaryServerInterceptor_disabled {Req Resp : Type} (w : World) (ctx : Context)
    (req : Req) (info : UnaryServerInfo) (handler : UnaryHandler Req Resp)
    (hdis : w.enabled = false) :
    UnaryServerInterceptor w ctx req info handler = handler ctx req w := by
  simp only [UnaryServerInterceptor, hdis, if_true]

/-- Witness of C12: the world `world0` with the switch off. -/
theorem UnaryServerInterceptor_disabled_witness :
    UnaryServerInterceptor { world0 with enabled := false } ctxActive 3
      { FullMethod := ascii "/svc/m" } failingHandler =
      failingHandler ctxActive 3 { world0 with enabled := false } :=
  UnaryServerInterceptor_disabled { world0 with enabled := false } ctxActive 3
    { FullMethod := ascii "/svc/m" } failingHandler rfl

theorem clientSpan_untraced (w : World) (ctx : Context) (method : GoString)
    (h : SpanFromContext ctx = none ∨
      ∃ sp, SpanFromContext ctx = some sp ∧ (w.heap sp).tracer = false) :
    clientSpan w ctx method = (none, ctx, w) := by
  rcases h with h | ⟨sp, h, ht⟩
  · simp only [clientSpan, h]
  · simp only [clientSpan, h, ht, Bool.false_eq_true, if_false]

/-- C13: when the context has no active span, or its active span has no
tracer, no child is opened (`child` stays nil, the context and the state are
untouched) and the interceptor returns what the invoker returns on the original
context and the state as it was: the metadata is not changed, no span object is
created and nothing is finished. -/
theorem UnaryClientInterceptor_untraced {Req Reply Conn Opt : Type}
    (codeString : GoError → GoString) (w : World) (ctx : Context) (method : GoString)
    (req : Req) (reply : Reply) (cc : Conn) (invoker : UnaryInvoker Req Reply Conn Opt)
    (opts : List Opt)
    (h : SpanFromContext ctx = none ∨
      ∃ sp, SpanFromContext ctx = some sp ∧ (w.heap sp).tracer = false) :
    clientSpan w ctx method = (none, ctx, w) ∧
    UnaryClientInterceptor codeString w ctx method req reply cc invoker opts =
      invoker ctx method req reply cc opts w := by
  have hc := clientSpan_untraced w ctx method h
  refine ⟨hc, ?_⟩
  simp only [UnaryClientInterceptor, hc]

/-- Witness of C13: a context without active span, and a context whose active
span (address 0 of `world0`) has no tracer. -/
theorem UnaryClientInterceptor_untraced_witness :
    UnaryClientInterceptor codeText world0 emptyCtx (ascii "/svc/m") 1 2 3 failingInvoker [] =
      failingInvoker emptyCtx (ascii "/svc/m") 1 2 3 [] world0 ∧
    UnaryClientInterceptor codeText world0 ctxActive (ascii "/svc/m") 1 2 3 failingInvoker [] =
      failingInvoker ctxActive (ascii "/svc/m") 1 2 3 [] world0 :=
  ⟨(UnaryClientInterceptor_untraced codeText world0 emptyCtx (ascii "/svc/m") 1 2 3
      failingInvoker [] (Or.inl rfl)).2,
   (UnaryClientInterceptor_untraced codeText world0 ctxActive (ascii "/svc/m") 1 2 3
      failingInvoker [] (Or.inr ⟨0, rfl, rfl⟩)).2⟩

/-- C14: the interceptor returns the error of the invoker, called on the
context and the state that the first part prepared; when a child span was
opened, `FinishWithErr` is called on it once, after the invoker and with that
error, which leaves the child finished with `Error = 1` for a non-nil error and
`Error = 0` for nil; when no child was opened the state is the one the invoker
left. -/
theorem UnaryClientInterceptor_outcome {Req Reply Conn Opt : Type}
    (codeString : GoError → GoString) (w : World) (ctx : Context) (method : GoString)
    (req : Req) (reply : Reply) (cc : Conn) (invoker : UnaryInvoker Req Reply Conn Opt)
    (opts : List Opt) :
    (UnaryClientInterceptor codeString w ctx method req reply cc invoker opts).1 =
      (invoker (clientSpan w ctx method).2.1 method req reply cc opts
        (clientSpan w ctx method).2.2).1 ∧
    (∀ child, (clientSpan w ctx method).1 = some child →
      (UnaryClientInterceptor codeString w ctx method req reply cc invoker opts).2.finishLog =
        (invoker (clientSpan w ctx method).2.1 method req reply cc opts
          (clientSpan w ctx method).2.2).2.finishLog ++
        [(child, (invoker (clientSpan w ctx method).2.1 method req reply cc opts
          (clientSpan w ctx method).2.2).1.isSome)] ∧
      ((UnaryClientInterceptor codeString w ctx method req reply cc invoker opts).2.heap
          child).Error =
        (if (invoker (clientSpan w ctx method).2.1 method req reply cc opts
          (clientSpan w ctx method).2.2).1 = none then 0 else 1) ∧
      ((UnaryClientInterceptor codeString w ctx method req reply cc invoker opts).2.heap
          child).finished = true) ∧
    ((clientSpan w ctx method).1 = none →
      (UnaryClientInterceptor codeString w ctx method req reply cc invoker opts).2 =
        (invoker (clientSpan w ctx method).2.1 method req reply cc opts
          (clientSpan w ctx method).2.2).2) := by
  refine ⟨?_, ?_, ?_⟩
  · cases h : (clientSpan w ctx method).1 <;> simp only [UnaryClientInterceptor, h]
  · intro child hchild
    simp only [UnaryClientInterceptor, hchild]
    refine ⟨?_, ?_, ?_⟩
    · simp [FinishWithErr, World.modify, SetMeta]
    · cases h : (invoker (clientSpan w ctx method).2.1 method req reply cc opts
          (clientSpan w ctx method).2.2).1 <;>
        simp [FinishWithErr, World.modify, h]
    · simp [FinishWithErr, World.modify]
  · intro hnone
    simp only [UnaryClientInterceptor, hnone]

theorem clientSpan_traced (w : World) (ctx : Context) (method : GoString) (sp : Nat)
    (hsp : SpanFromContext ctx = some sp) (htr : (w.heap sp).tracer = true) :
    clientSpan w ctx method =
      (some w.allocated,
        ContextWithSpan
          (setIDs (some ((SetMeta (NewChildSpan w (ascii "grpc.client") sp).2 w.allocated
            (ascii "grpc.method") method).heap w.allocated)) ctx) w.allocated,
        SetMeta (NewChildSpan w (ascii "grpc.client") sp).2 w.allocated
          (ascii "grpc.method") method) := by
  simp only [clientSpan, hsp, htr, if_true]
  rfl

theorem clientSpan_child (w : World) (method : GoString) (sp : Nat) :
    ((SetMeta (NewChildSpan w (ascii "grpc.client") sp).2 w.allocated
        (ascii "grpc.method") method).heap w.allocated).TraceID = (w.heap sp).TraceID ∧
    ((SetMeta (NewChildSpan w (ascii "grpc.client") sp).2 w.allocated
        (ascii "grpc.method") method).heap w.allocated).ParentID = (w.heap sp).SpanID ∧
    ((SetMeta (NewChildSpan w (ascii "grpc.client") sp).2 w.allocated
        (ascii "grpc.method") method).heap w.allocated).Meta =
      some (AList.insert (ascii "grpc.method") method ∅) := by
  refine ⟨?_, ?_, ?_⟩ <;> simp [SetMeta, World.modify, NewChildSpan]

/-- What the first part of the client interceptor does when the active span
of the context has a tracer: a child is opened whose trace id is that of the
active span and whose parent id is the span id of the active span; the context
handed to the invoker binds the child as active span; the child carries the
attribute `grpc.method`; and when the trace id of the child is nonzero, the
metadata of that context holds under each reserved key the values the original
context held there followed by the decimal form of the id of the child. -/
theorem clientSpan_carries_child {Req Reply Conn Opt : Type} (w : World) (ctx : Context)
    (method : GoString) (sp : Nat) (hsp : SpanFromContext ctx = some sp)
    (htr : (w.heap sp).tracer = true) :
    ∃ child ctx2 w2, clientSpan w ctx method = (some child, ctx2, w2) ∧
      (∀ (codeString : GoError → GoString) (req : Req) (reply : Reply) (cc : Conn)
          (invoker : UnaryInvoker Req Reply Conn Opt) (opts : List Opt),
        (UnaryClientInterceptor codeString w ctx method req reply cc invoker opts).1 =
          (invoker ctx2 method req reply cc opts w2).1) ∧
      SpanFromContext ctx2 = some child ∧
      (w2.heap child).TraceID = (w.heap sp).TraceID ∧
      (w2.heap child).ParentID = (w.heap sp).SpanID ∧
      (w2.heap child).Meta.bind (fun m => m.lookup (ascii "grpc.method")) = some method ∧
      ((w2.heap child).TraceID ≠ 0 →
        ∃ md, metadata.FromContext ctx2 = some md ∧
          md.index traceIDKey = ctxIndex ctx traceIDKey ++ [Sprint (w2.heap child).TraceID] ∧
          md.index parentIDKey =
            ctxIndex ctx parentIDKey ++ [Sprint (w2.heap child).ParentID]) := by
  have hc := clientSpan_traced w ctx method sp hsp htr
  obtain ⟨h1, h2, h3⟩ := clientSpan_child w method sp
  refine ⟨_, _, _, hc, ?_, rfl, h1, h2, ?_, ?_⟩
  · intro codeString req reply cc invoker opts
    simp only [UnaryClientInterceptor, hc]
  · rw [h3, Option.some_bind, AList.lookup_insert]
  · intro hne
    obtain ⟨md2, hmd, hT, hP, _⟩ := setIDs_index _ ctx hne
    exact ⟨md2, hmd, hT, hP⟩

/-- C15 (evaluation at a failing input): a server handler whose span (trace
id 11, span id 12) is active calls another service with the context it
received, which holds the inbound ids 11 and 3 in its metadata. The child is
opened at address 1 and bound, with trace id 11, parent id 12 and the attribute
`grpc.method`; but under the reserved keys the outbound metadata holds
`["11", "11"]` and `["3", "12"]`, and extraction from it gives `(11, 3)`, not
the ids `(11, 12)` of the child. -/
theorem clientSpan_keeps_inbound_ids :
    (clientSpan world1 ctxHop (ascii "/svc/m")).1 = some 1 ∧
    SpanFromContext (clientSpan world1 ctxHop (ascii "/svc/m")).2.1 = some 1 ∧
    ((clientSpan world1 ctxHop (ascii "/svc/m")).2.2.heap 1).TraceID = 11 ∧
    ((clientSpan world1 ctxHop (ascii "/svc/m")).2.2.heap 1).ParentID = 12 ∧
    ((clientSpan world1 ctxHop (ascii "/svc/m")).2.2.heap 1).Meta.bind
      (fun m => m.lookup (ascii "grpc.method")) = some (ascii "/svc/m") ∧
    ctxIndex (clientSpan world1 ctxHop (ascii "/svc/m")).2.1 traceIDKey =
      [ascii "11", ascii "11"] ∧
    ctxIndex (clientSpan world1 ctxHop (ascii "/svc/m")).2.1 parentIDKey =
      [ascii "3", ascii "12"] ∧
    getIDs (clientSpan world1 ctxHop (ascii "/svc/m")).2.1 = (11, 3) := by
  decide

/-! ## The span encoder -/

set_option maxRecDepth 20000

theorem Sprint_spec (n : Nat) : isDecimal (Sprint n) = true ∧ decimalValue (Sprint n) = n :=
  formatDecimal_spec n n (le_refl n)

theorem Sprint_head (n : Nat) : (Sprint n).head? ≠ some 45 := by
  obtain ⟨h, _⟩ := Sprint_spec n
  cases hs : Sprint n with
  | nil => simp
  | cons c rest =>
    rw [hs] at h
    simp only [isDecimal, List.all_cons, Bool.and_eq_true] at h
    intro hc
    have hc2 : c = 45 := Option.some.inj hc
    rw [hc2] at h
    exact absurd h.2.1 (by decide)

theorem formatInt_spec (i : Int) : isIntText (formatInt i) = true ∧ intValue (formatInt i) = i := by
  by_cases hi : i < 0
  · have h : formatInt i = 45 :: Sprint i.natAbs := by simp only [formatInt, if_pos hi]
    rw [h]
    obtain ⟨h1, h2⟩ := Sprint_spec i.natAbs
    constructor
    · simpa [isIntText] using h1
    · simp only [intValue, List.head?_cons, if_true, List.tail_cons, h2]
      omega
  · have h : formatInt i = Sprint i.toNat := by simp only [formatInt, if_neg hi]
    rw [h]
    obtain ⟨h1, h2⟩ := Sprint_spec i.toNat
    have hh := Sprint_head i.toNat
    constructor
    · simp only [isIntText, if_neg hh, h1]
    · simp only [intValue, if_neg hh, h2]
      omega

theorem escapeLoop_plain (s : GoString) (h : s.all plainByte = true) (fuel : Nat)
    (hf : s.length ≤ fuel) : escapeLoop fuel s = s := by
  induction s generalizing fuel with
  | nil => cases fuel <;> rfl
  | cons b rest ih =>
    cases fuel with
    | zero => simp at hf
    | succ fuel =>
      simp only [List.all_cons, Bool.and_eq_true] at h
      have hb : 32 ≤ b ∧ b < 127 ∧ b ≠ 34 ∧ b ≠ 92 ∧ b ≠ 60 ∧ b ≠ 62 ∧ b ≠ 38 := by
        have := h.1
        simp only [plainByte, Bool.and_eq_true, decide_eq_true_eq, Bool.not_eq_true',
          Bool.or_eq_false_iff, beq_eq_false_iff_ne, ne_eq] at this
        obtain ⟨⟨a1, a2⟩, ⟨⟨⟨⟨a3, a4⟩, a5⟩, a6⟩, a7⟩⟩ := this
        exact ⟨a1, a2, a3, a4, a5, a6, a7⟩
      have hlt : b < 128 := by omega
      have hesc : escapeByte b = [b] := by
        simp only [escapeByte]
        rw [if_pos ⟨hb.1, hb.2.2.2.1, hb.2.2.1, hb.2.2.2.2.1, hb.2.2.2.2.2.1, hb.2.2.2.2.2.2⟩]
      simp only [escapeLoop, if_pos hlt, hesc]
      rw [ih h.2 fuel (by simpa using hf)]
      rfl

/-- C16: for a list that holds one span with nil meta and nil metrics,
`Encode` succeeds and returns a JSON array with one record whose fields are, in
this order, name, service, resource, type, start, duration, error, meta,
metrics, span_id, trace_id, parent_id, with meta and metrics `null` and every
number written without quotes as an integer text that denotes the value of
the span; a string is written between double quotes, as it is when all its
bytes are plain and escaped otherwise; and for the span of `TestJSONEncoder`
the output is the literal of the test. -/
theorem Encode_single_span (lib : JSONLibrary) :
    (∀ s : Span, s.Meta = none → s.Metrics = none →
      ∃ start duration error spanID traceID parentID : GoString,
        Encode lib [some s] =
          some (ascii "[\x7b\"name\":" ++ jsonString s.Name ++
            ascii ",\"service\":" ++ jsonString s.Service ++
            ascii ",\"resource\":" ++ jsonString s.Resource ++
            ascii ",\"type\":" ++ jsonString s.SpanType ++
            ascii ",\"start\":" ++ start ++
            ascii ",\"duration\":" ++ duration ++
            ascii ",\"error\":" ++ error ++
            ascii ",\"meta\":null,\"metrics\":null,\"span_id\":" ++ spanID ++
            ascii ",\"trace_id\":" ++ traceID ++
            ascii ",\"parent_id\":" ++ parentID ++ ascii "\x7d]") ∧
        isIntText start = true ∧ intValue start = s.Start ∧
        isIntText duration = true ∧ intValue duration = s.Duration ∧
        isDecimal error = true ∧ decimalValue error = s.Error ∧
        isDecimal spanID = true ∧ decimalValue spanID = s.SpanID ∧
        isDecimal traceID = true ∧ decimalValue traceID = s.TraceID ∧
        isDecimal parentID = true ∧ decimalValue parentID = s.ParentID) ∧
    (∀ str : GoString, (jsonString str).head? = some 34 ∧ (jsonString str).getLast? = some 34 ∧
      (str.all plainByte = true → jsonString str = 34 :: (str ++ [34]))) ∧
    jsonString (ascii "a\"\\\n\r\t<>&" ++ [1, 127, 195, 169, 226, 128, 168, 226, 128, 169, 255]) =
      ascii "\"a\\\"\\\\\\n\\r\\t\\u003c\\u003e\\u0026\\u0001" ++ [127, 195, 169] ++
        ascii "\\u2028\\u2029\\ufffd\"" ∧
    (∀ now : Int,
      Encode lib [some { newSpan now 0 0 0 (ascii "pylons") (ascii "pylons.request") (ascii "/")
          false with Start := 0 }] =
        some (ascii "[\x7b\"name\":\"pylons.request\",\"service\":\"pylons\",\"resource\":\"/\",\"type\":\"\",\"start\":0,\"duration\":0,\"error\":0,\"meta\":null,\"metrics\":null,\"span_id\":0,\"trace_id\":0,\"parent_id\":0\x7d]")) := by
  refine ⟨?_, ?_, by decide, ?_⟩
  · intro s hmeta hmetrics
    refine ⟨formatInt s.Start, formatInt s.Duration, Sprint s.Error, Sprint s.SpanID,
      Sprint s.TraceID, Sprint s.ParentID, ?_, (formatInt_spec _).1, (formatInt_spec _).2,
      (formatInt_spec _).1, (formatInt_spec _).2, (Sprint_spec _).1, (Sprint_spec _).2,
      (Sprint_spec _).1, (Sprint_spec _).2, (Sprint_spec _).1, (Sprint_spec _).2,
      (Sprint_spec _).1, (Sprint_spec _).2⟩
    simp only [Encode, encodeRecords, encodeSpan, encodeMetrics, encodeMeta, hmeta, hmetrics,
      Option.map_some', joinComma]
    have e1 : ascii "[\x7b\"name\":" = 91 :: ascii "\x7b\"name\":" := by decide
    have e2 : ascii ",\"meta\":null,\"metrics\":null,\"span_id\":" =
        ascii ",\"meta\":" ++ ascii "null" ++ ascii ",\"metrics\":" ++ ascii "null" ++
          ascii ",\"span_id\":" := by decide
    have e3 : ascii "\x7d]" = ascii "\x7d" ++ [93] := by decide
    rw [e1, e2, e3]
    simp only [List.append_assoc, List.cons_append]
  · intro str
    refine ⟨rfl, ?_, ?_⟩
    · rw [jsonString, ← List.cons_append]
      exact List.getLast?_concat _
    · intro h
      rw [jsonString, escapeLoop_plain str h str.length (le_refl _)]
  · intro now
    have q1 : jsonString (ascii "pylons.request") = ascii "\"pylons.request\"" := by decide
    have q2 : jsonString (ascii "pylons") = ascii "\"pylons\"" := by decide
    have q3 : jsonString (ascii "/") = ascii "\"/\"" := by decide
    have q4 : jsonString [] = ascii "\"\"" := by decide
    have q5 : formatInt 0 = ascii "0" := by decide
    have q6 : Sprint 0 = ascii "0" := by decide
    simp only [Encode, encodeRecords, encodeSpan, encodeMetrics, encodeMeta, newSpan,
      Option.map_some', joinComma, q1, q2, q3, q4, q5, q6]
    decide

/-- Witness of C16: the span `sampleSpan`, with a negative start and a name
that needs escaping. -/
theorem Encode_single_span_witness :
    Encode noLibrary [some sampleSpan] =
      some (ascii "[\x7b\"name\":\"a\\\"b\",\"service\":\"\",\"resource\":\"\",\"type\":\"\",\"start\":-3,\"duration\":0,\"error\":0,\"meta\":null,\"metrics\":null,\"span_id\":0,\"trace_id\":5,\"parent_id\":7\x7d]") ∧
    ∃ start duration error spanID traceID parentID : GoString,
      Encode noLibrary [some sampleSpan] =
        some (ascii "[\x7b\"name\":" ++ jsonString sampleSpan.Name ++
          ascii ",\"service\":" ++ jsonString sampleSpan.Service ++
          ascii ",\"resource\":" ++ jsonString sampleSpan.Resource ++
          ascii ",\"type\":" ++ jsonString sampleSpan.SpanType ++
          ascii ",\"start\":" ++ start ++
          ascii ",\"duration\":" ++ duration ++
          ascii ",\"error\":" ++ error ++
          ascii ",\"meta\":null,\"metrics\":null,\"span_id\":" ++ spanID ++
          ascii ",\"trace_id\":" ++ traceID ++
          ascii ",\"parent_id\":" ++ parentID ++ ascii "\x7d]") ∧
      isIntText start = true ∧ intValue start = -3 ∧
      isIntText duration = true ∧ intValue duration = 0 ∧
      isDecimal error = true ∧ decimalValue error = 0 ∧
      isDecimal spanID = true ∧ decimalValue spanID = 0 ∧
      isDecimal traceID = true ∧ decimalValue traceID = 5 ∧
      isDecimal parentID = true ∧ decimalValue parentID = 7 :=
  ⟨by decide, (Encode_single_span noLibrary).1 sampleSpan rfl rfl⟩

end TraceGrpc
